import Mathlib

/-!
Verification development for the `gores-mapgen` map generator.

The Rust sources are shallowly embedded below.  Mutable state (`&mut Map`,
`&mut self`) is rendered by explicit state passing: a Rust method that
mutates in place and returns `Result<T, &'static str>` becomes a Lean
function returning the updated state together with an `Option String`
(`some e` = the Rust early `return Err(e)`, the state accumulated up to
that point being kept, exactly as the Rust `&mut` receiver keeps its
mutations), or an `Except String` value when no mutation can precede the
failure.  Rust `panic!`/`unwrap`/`expect`/`assert!` failures are rendered
as `Option` (`none` = panic).  Grids (`ndarray::Array2`) are rendered as
total functions `Nat → Nat → _` together with the explicit `width`/`height`
fields carried by `Map`; the embedded code only ever reads or writes
in-bounds indices of interest, mirroring the Rust loops.

Modules `config.rs`, `position.rs`, `random.rs` and `kernel.rs` are part of
the repository but absent from the provided sources; definitions that embed
them are modelled from the spec and say so in their doc comments.
-/

/-- `BlockType` from src/map.rs (the enum in the provided sources has exactly
these three variants). -/
inductive BlockType
  | Empty
  | Hookable
  | Freeze
deriving DecidableEq, Repr

/-- `KernelType` from src/map.rs. -/
inductive KernelType
  | Outer
  | Inner
deriving DecidableEq, Repr

/-- `ShiftDirection` — modelled from the spec: position.rs is absent from the
provided sources; the spec lists the four axis directions Up/Down/Left/Right. -/
inductive ShiftDirection
  | Up
  | Right
  | Down
  | Left
deriving DecidableEq, Repr

/-- `Position` — modelled from the spec: position.rs is absent; the spec says a
position is an integer 2D coordinate (grid indices, hence `Nat` like Rust's
`usize`). -/
structure Position where
  x : Nat
  y : Nat
deriving DecidableEq, Repr

/-- Squared Euclidean distance between two positions (spec: "squared distance
to another position"); `usize` coordinates, so the difference is taken in the
order that does not underflow. -/
def Position.distance_squared (p q : Position) : Nat :=
  ((p.x - q.x) + (q.x - p.x)) ^ 2 + ((p.y - q.y) + (q.y - p.y)) ^ 2

/-- `Kernel` — modelled from the spec: kernel.rs is absent.  A kernel is an
odd-sized square boolean footprint with scalar descriptors `size` and
`circularity`; `vector` is the `Array2<bool>` of active offsets. -/
structure Kernel where
  size : Nat
  circularity : ℚ
  vector : Nat → Nat → Bool

/-- `Kernel::new(size, circularity)` — modelled from the spec: a cell at offset
`(kx, ky)` from the center is active iff its squared Euclidean distance from
the center is within a radius interpolated by `circularity` between the
circumscribed square (circularity 0 ⇒ full square) and the inscribed disc;
sizes ≤ 3 are forced to full square. -/
def Kernel.new (size : Nat) (circularity : ℚ) : Kernel :=
  let circ : ℚ := if size ≤ 3 then 0 else circularity
  let c : Nat := size / 2
  let limit : ℚ := (1 - circ) * (2 * (c : ℚ) ^ 2) + circ * ((c : ℚ) ^ 2)
  { size := size
    circularity := circ
    vector := fun kx ky =>
      decide (((kx : ℚ) - (c : ℚ)) ^ 2 + ((ky : ℚ) - (c : ℚ)) ^ 2 ≤ limit) }

/-- `CuteWalker` from src/walker.rs (its fields; `locked_positions` is an
`Array2<bool>`, `position_history` a `Vec<Position>`). -/
structure CuteWalker where
  pos : Position
  steps : Nat
  inner_kernel : Kernel
  outer_kernel : Kernel
  goal : Option Position
  goal_index : Nat
  waypoints : List Position
  finished : Bool
  steps_since_platform : Nat
  last_shift : Option ShiftDirection
  pulse_counter : Nat
  locked_positions : Nat → Nat → Bool
  position_history : List Position

/-- `Map` from src/map.rs. -/
structure Map where
  width : Nat
  height : Nat
  grid : Nat → Nat → BlockType
  spawn : Position

/-- Pointwise update of a grid function (one `Array2` store). -/
def gset (g : Nat → Nat → BlockType) (x y : Nat) (b : BlockType) :
    Nat → Nat → BlockType :=
  fun a b' => if a = x ∧ b' = y then b else g a b'

/-- The tile-transition `match` of `Map::update` (src/map.rs lines 65-73):
an inner kernel removes everything, an outer kernel turns hookables to
freeze and leaves empty alone. -/
def tile_transition (kernel_type : KernelType) (current_type : BlockType) :
    BlockType :=
  match kernel_type, current_type with
  | KernelType.Inner, _ => BlockType.Empty
  | KernelType.Outer, BlockType.Hookable => BlockType.Freeze
  | KernelType.Outer, BlockType.Freeze => BlockType.Freeze
  | KernelType.Outer, BlockType.Empty => BlockType.Empty

/-- The bounds test of `Map::update` (src/map.rs lines 48-56). -/
def kernel_oob (m : Map) (pos : Position) (kernel : Kernel) : Prop :=
  let offset := kernel.size / 2
  let extend := kernel.size - offset
  pos.x < offset ∨ pos.y < offset ∨
    pos.x + extend > m.width ∨ pos.y + extend > m.height

instance (m : Map) (pos : Position) (kernel : Kernel) :
    Decidable (kernel_oob m pos kernel) := by
  unfold kernel_oob; infer_instance

/-- Whether the write loop of `Map::update` touches cell `(x, y)`: the cell
lies inside the kernel's square rooted at `root_pos` and the kernel mask is
active there (src/map.rs lines 60-63). -/
def kernel_active (pos : Position) (kernel : Kernel) (x y : Nat) : Prop :=
  let offset := kernel.size / 2
  let root_x := pos.x - offset
  let root_y := pos.y - offset
  root_x ≤ x ∧ x < root_x + kernel.size ∧ root_y ≤ y ∧ y < root_y + kernel.size ∧
    kernel.vector (x - root_x) (y - root_y) = true

instance (pos : Position) (kernel : Kernel) (x y : Nat) :
    Decidable (kernel_active pos kernel x y) := by
  unfold kernel_active; infer_instance

/-- `Map::update` (src/map.rs lines 39-79).  The bounds check precedes the
write loop, so the error case returns before any cell is written; in this
functional embedding the error therefore carries no grid at all and the
caller keeps the untouched map.  Every active cell is written exactly once
with `tile_transition` of its current value (distinct loop iterations touch
distinct cells), rendered as one pointwise override. -/
def Map.update (m : Map) (walker : CuteWalker) (kernel_type : KernelType) :
    Except String Map :=
  let kernel := match kernel_type with
    | KernelType.Inner => walker.inner_kernel
    | KernelType.Outer => walker.outer_kernel
  if kernel_oob m walker.pos kernel then
    Except.error "kernel out of bounds"
  else
    let written : Nat → Nat → BlockType := fun x y =>
      if kernel_active walker.pos kernel x y then
        tile_transition kernel_type (m.grid x y)
      else m.grid x y
    Except.ok { m with grid := written }

/-- The kernel selected by `Map::update` for a given `KernelType`. -/
def selected_kernel (walker : CuteWalker) (kernel_type : KernelType) : Kernel :=
  match kernel_type with
  | KernelType.Inner => walker.inner_kernel
  | KernelType.Outer => walker.outer_kernel

/-- A cell of the kernel's square footprint falls outside the grid: the
footprint of a kernel of side `size` centered via `offset = size / 2` covers
the signed coordinates `pos - offset + k` for `k < size` in each axis. -/
def footprint_outside (m : Map) (pos : Position) (kernel : Kernel) : Prop :=
  ∃ kx, kx < kernel.size ∧ ∃ ky, ky < kernel.size ∧
    ((pos.x : Int) - (kernel.size / 2 : Nat) + kx < 0 ∨
     (pos.x : Int) - (kernel.size / 2 : Nat) + kx ≥ (m.width : Int) ∨
     (pos.y : Int) - (kernel.size / 2 : Nat) + ky < 0 ∨
     (pos.y : Int) - (kernel.size / 2 : Nat) + ky ≥ (m.height : Int))

instance (m : Map) (pos : Position) (kernel : Kernel) :
    Decidable (footprint_outside m pos kernel) := by
  unfold footprint_outside
  infer_instance

lemma footprint_outside_iff_kernel_oob (m : Map) (pos : Position) (kernel : Kernel)
    (hsz : 0 < kernel.size) :
    footprint_outside m pos kernel ↔ kernel_oob m pos kernel := by
  unfold footprint_outside kernel_oob
  constructor
  · rintro ⟨kx, hkx, ky, hky, h⟩
    rcases h with h | h | h | h
    · left; omega
    · right; right; left; omega
    · right; left; omega
    · right; right; right; omega
  · intro h
    rcases h with h | h | h | h
    · exact ⟨0, hsz, 0, hsz, Or.inl (by omega)⟩
    · exact ⟨0, hsz, 0, hsz, Or.inr (Or.inr (Or.inl (by omega)))⟩
    · exact ⟨kernel.size - 1, by omega, 0, hsz, Or.inr (Or.inl (by omega))⟩
    · exact ⟨0, hsz, kernel.size - 1, by omega,
        Or.inr (Or.inr (Or.inr (by omega)))⟩

/-- C2: for every grid state, walker position and (nonempty) kernel, if any
part of the kernel's square footprint would fall outside the grid bounds then
`Map::update` returns the out-of-bounds error — before any write, so the grid
is untouched (the error value carries no modified map) — and otherwise it
performs its writes and succeeds. -/
theorem map_update_all_or_nothing (m : Map) (walker : CuteWalker)
    (kernel_type : KernelType)
    (hsz : 0 < (selected_kernel walker kernel_type).size) :
    (footprint_outside m walker.pos (selected_kernel walker kernel_type) ↔
      m.update walker kernel_type = Except.error "kernel out of bounds") ∧
    (¬ footprint_outside m walker.pos (selected_kernel walker kernel_type) →
      ∃ m', m.update walker kernel_type = Except.ok m' ∧
        m'.width = m.width ∧ m'.height = m.height) := by
  have hker : ∀ kt : KernelType,
      (match kt with
        | KernelType.Inner => walker.inner_kernel
        | KernelType.Outer => walker.outer_kernel) = selected_kernel walker kt := by
    intro kt; cases kt <;> rfl
  constructor
  · rw [footprint_outside_iff_kernel_oob m walker.pos _ hsz]
    constructor
    · intro h
      unfold Map.update
      rw [hker kernel_type, if_pos h]
    · intro h
      unfold Map.update at h
      rw [hker kernel_type] at h
      by_contra hoob
      rw [if_neg hoob] at h
      exact Except.noConfusion h
  · intro h
    rw [footprint_outside_iff_kernel_oob m walker.pos _ hsz] at h
    unfold Map.update
    rw [hker kernel_type, if_neg h]
    exact ⟨_, rfl, rfl, rfl⟩

/-- Witness for C2 at a concrete input: a 5-kernel at position (1,1) of a
10×10 map sticks out to the left/top, so `update` fails; at (5,5) it fits and
succeeds. -/
theorem map_update_all_or_nothing_witness :
    (0 < (selected_kernel
        { pos := ⟨1, 1⟩, steps := 0, inner_kernel := Kernel.new 5 0,
          outer_kernel := Kernel.new 5 0, goal := none, goal_index := 0,
          waypoints := [], finished := false, steps_since_platform := 0,
          last_shift := none, pulse_counter := 0,
          locked_positions := fun _ _ => false, position_history := [] }
        KernelType.Inner).size) ∧
    ({ width := 10, height := 10, grid := fun _ _ => BlockType.Hookable,
       spawn := ⟨0, 0⟩ : Map}.update
        { pos := ⟨1, 1⟩, steps := 0, inner_kernel := Kernel.new 5 0,
          outer_kernel := Kernel.new 5 0, goal := none, goal_index := 0,
          waypoints := [], finished := false, steps_since_platform := 0,
          last_shift := none, pulse_counter := 0,
          locked_positions := fun _ _ => false, position_history := [] }
        KernelType.Inner = Except.error "kernel out of bounds") := by
  refine ⟨by decide, ?_⟩
  exact ((map_update_all_or_nothing
    { width := 10, height := 10, grid := fun _ _ => BlockType.Hookable,
      spawn := ⟨0, 0⟩ }
    { pos := ⟨1, 1⟩, steps := 0, inner_kernel := Kernel.new 5 0,
      outer_kernel := Kernel.new 5 0, goal := none, goal_index := 0,
      waypoints := [], finished := false, steps_since_platform := 0,
      last_shift := none, pulse_counter := 0,
      locked_positions := fun _ _ => false, position_history := [] }
    KernelType.Inner (by decide)).1).mp (by decide)

/-- The grid written by a successful `Map::update`: the pointwise override by
`tile_transition` on active cells. -/
def updated_grid (m : Map) (walker : CuteWalker) (kernel_type : KernelType) :
    Nat → Nat → BlockType := fun x y =>
  if kernel_active walker.pos (selected_kernel walker kernel_type) x y then
    tile_transition kernel_type (m.grid x y)
  else m.grid x y

/-- On an in-bounds application, `Map::update` succeeds and its write loop is
the pointwise override by `tile_transition` on active cells. -/
lemma map_update_ok (m : Map) (walker : CuteWalker) (kernel_type : KernelType)
    (h : ¬ kernel_oob m walker.pos (selected_kernel walker kernel_type)) :
    m.update walker kernel_type =
      Except.ok { m with grid := updated_grid m walker kernel_type } := by
  cases kernel_type <;>
    · unfold Map.update selected_kernel updated_grid at *
      rw [if_neg h]
      rfl

/-- C3: for every in-bounds kernel application, each active cell of the
footprint is rewritten by the tile-transition rule — an inner kernel forces
the void tile (`Empty`) regardless of the cell's current tile, while an outer
kernel turns `Hookable` into `Freeze`, leaves `Freeze` as `Freeze` and leaves
`Empty` unchanged — and inactive cells are untouched. -/
theorem map_update_transition (m : Map) (walker : CuteWalker)
    (kernel_type : KernelType)
    (h : ¬ kernel_oob m walker.pos (selected_kernel walker kernel_type)) :
    ∃ m', m.update walker kernel_type = Except.ok m' ∧
      (∀ x y, kernel_active walker.pos (selected_kernel walker kernel_type) x y →
        m'.grid x y = tile_transition kernel_type (m.grid x y)) ∧
      (∀ x y, ¬ kernel_active walker.pos (selected_kernel walker kernel_type) x y →
        m'.grid x y = m.grid x y) ∧
      (∀ b, tile_transition KernelType.Inner b = BlockType.Empty) ∧
      tile_transition KernelType.Outer BlockType.Hookable = BlockType.Freeze ∧
      tile_transition KernelType.Outer BlockType.Freeze = BlockType.Freeze ∧
      tile_transition KernelType.Outer BlockType.Empty = BlockType.Empty := by
  refine ⟨_, map_update_ok m walker kernel_type h, ?_, ?_, ?_, rfl, rfl, rfl⟩
  · intro x y hact
    simp only [updated_grid, if_pos hact]
  · intro x y hact
    simp only [updated_grid, if_neg hact]
  · intro b; cases b <;> rfl

/-- A concrete full-square 3-kernel used by witnesses (its mask is a plain
boolean function, so it evaluates by `decide`). -/
def sq3 : Kernel := { size := 3, circularity := 0, vector := fun _ _ => true }

/-- A concrete walker at (2,2) carrying `sq3` as both kernels. -/
def walker22 : CuteWalker :=
  { pos := ⟨2, 2⟩, steps := 0, inner_kernel := sq3, outer_kernel := sq3,
    goal := none, goal_index := 0, waypoints := [], finished := false,
    steps_since_platform := 0, last_shift := none, pulse_counter := 0,
    locked_positions := fun _ _ => false, position_history := [] }

/-- A concrete 6×6 all-`Hookable` map used by witnesses. -/
def hook6 : Map :=
  { width := 6, height := 6, grid := fun _ _ => BlockType.Hookable,
    spawn := ⟨0, 0⟩ }

/-- Witness for C3: the square 3-kernel applied at (2,2) of the 6×6 map is in
bounds; the center cell is active and the inner rule empties it, the far
corner (5,5) is inactive and keeps its tile. -/
theorem map_update_transition_witness :
    (¬ kernel_oob hook6 walker22.pos (selected_kernel walker22 KernelType.Inner)) ∧
    ∃ m', hook6.update walker22 KernelType.Inner = Except.ok m' ∧
      m'.grid 2 2 = BlockType.Empty ∧ m'.grid 5 5 = BlockType.Hookable := by
  refine ⟨by decide, ?_⟩
  obtain ⟨m', hok, hact, hinact, htr, -, -, -⟩ :=
    map_update_transition hook6 walker22 KernelType.Inner (by decide)
  exact ⟨m', hok, (hact 2 2 (by decide)).trans (htr _),
    hinact 5 5 (by decide)⟩

/-- `CuteWalker::new` (src/walker.rs lines 45-67).  The Rust body evaluates
`waypoints.first().unwrap()`, which panics when the waypoint list is empty;
the panic is rendered as `none`. -/
def CuteWalker.new (initial_pos : Position) (inner_kernel outer_kernel : Kernel)
    (waypoints : List Position) (map : Map) : Option CuteWalker :=
  match waypoints.head? with
  | none => none
  | some first_waypoint =>
    some { pos := initial_pos, steps := 0, inner_kernel := inner_kernel,
           outer_kernel := outer_kernel, goal := some first_waypoint,
           goal_index := 0, waypoints := waypoints, finished := false,
           steps_since_platform := 0, last_shift := none, pulse_counter := 0,
           locked_positions := fun _ _ => false, position_history := [] }

/-- C9: constructing a walker with an empty waypoint list panics (the unwrap
of the first waypoint), so a walker is only constructed when the list is
non-empty, and then it starts with `goal` equal to the first waypoint and
`finished = false`. -/
theorem cute_walker_new_spec (initial_pos : Position)
    (inner_kernel outer_kernel : Kernel) (waypoints : List Position) (map : Map) :
    (waypoints = [] →
      CuteWalker.new initial_pos inner_kernel outer_kernel waypoints map = none) ∧
    (∀ w0 rest, waypoints = w0 :: rest →
      ∃ w, CuteWalker.new initial_pos inner_kernel outer_kernel waypoints map =
          some w ∧
        w.goal = some w0 ∧ w.finished = false ∧ w.pos = initial_pos ∧
        w.waypoints = waypoints) := by
  constructor
  · rintro rfl; rfl
  · rintro w0 rest rfl
    exact ⟨_, rfl, rfl, rfl, rfl, rfl⟩

/-- Witness for C9: with no waypoints construction panics; with waypoint
(1,2) it yields a walker aiming at (1,2), not finished. -/
theorem cute_walker_new_spec_witness :
    CuteWalker.new ⟨0, 0⟩ sq3 sq3 [] hook6 = none ∧
    ∃ w, CuteWalker.new ⟨0, 0⟩ sq3 sq3 [⟨1, 2⟩] hook6 = some w ∧
      w.goal = some ⟨1, 2⟩ ∧ w.finished = false ∧ w.pos = (⟨0, 0⟩ : Position) ∧
      w.waypoints = [⟨1, 2⟩] := by
  exact ⟨(cute_walker_new_spec ⟨0, 0⟩ sq3 sq3 [] hook6).1 rfl,
    (cute_walker_new_spec ⟨0, 0⟩ sq3 sq3 [⟨1, 2⟩] hook6).2 ⟨1, 2⟩ [] rfl⟩

/-- `GenerationConfig` — modelled from the spec: config.rs is absent from the
provided sources.  Only the fields read by the embedded walker/generator code
are carried; `inner_size_probs` is the discrete distribution whose `values`
the lock-window sizing reads. -/
structure GenerationConfig where
  inner_size_mut_prob : ℚ
  outer_size_mut_prob : ℚ
  inner_rad_mut_prob : ℚ
  outer_rad_mut_prob : ℚ
  momentum_prob : ℚ
  enable_pulse : Bool
  pulse_straight_delay : Nat
  pulse_corner_delay : Nat
  pulse_max_kernel_size : Nat
  fade_steps : Nat
  max_distance : ℚ
  waypoint_reached_dist : Nat
  inner_size_probs_values : List Nat

/-- `Rnd` — modelled from the spec: random.rs is absent.  A deterministic
stream: `bools` feeds `with_probability`, `nats` feeds the discrete samplers
and the weighted shift choice, `qs` feeds `sample_circularity`; `idx` is the
position in the stream.  Per the spec each `sample_*` helper consumes a fixed
two draws, mirrored by the caller's `skip_n(2)`. -/
structure Rnd where
  bools : Nat → Bool
  nats : Nat → Nat
  qs : Nat → ℚ
  idx : Nat

/-- `Random::skip_n` — modelled from the spec: advances the stream by `n`
draws. -/
def Rnd.skip_n (r : Rnd) (n : Nat) : Rnd := { r with idx := r.idx + n }

/-- `Random::with_probability(p)` — modelled from the spec: consumes one draw
and returns a Bernoulli result (the stream decides the outcome). -/
def Rnd.with_probability (r : Rnd) (p : ℚ) : Bool × Rnd :=
  (r.bools r.idx, { r with idx := r.idx + 1 })

/-- `Random::sample_inner_kernel_size` — modelled from the spec: draws from
the configured discrete distribution, consuming two draws. -/
def Rnd.sample_inner_kernel_size (r : Rnd) : Nat × Rnd :=
  (r.nats r.idx, r.skip_n 2)

/-- `Random::sample_outer_kernel_margin` — modelled from the spec: draws the
outer margin (outer size − inner size), consuming two draws. -/
def Rnd.sample_outer_kernel_margin (r : Rnd) : Nat × Rnd :=
  (r.nats r.idx, r.skip_n 2)

/-- `Random::sample_circularity` — modelled from the spec: draws a
circularity, consuming two draws. -/
def Rnd.sample_circularity (r : Rnd) : ℚ × Rnd :=
  (r.qs r.idx, r.skip_n 2)

/-- `Random::sample_shift(shifts)` — modelled from the spec: weighted discrete
choice among the rated candidate shifts, consuming one draw; the stream value
selects the candidate. -/
def Rnd.sample_shift (r : Rnd) (shifts : List ShiftDirection) :
    ShiftDirection × Rnd :=
  (shifts.getD (r.nats r.idx % shifts.length) ShiftDirection.Up,
    { r with idx := r.idx + 1 })

/-- `CuteWalker::mutate_kernel` (src/walker.rs lines 245-298).  Each of the
four mutation branches either samples (consuming two draws) or compensates
with `skip_n(2)`; afterwards `outer_size = inner_size + outer_margin` is
recomputed, sizes ≤ 3 force circularity 0, and `assert!(outer_size >=
inner_size)` must hold — an assertion failure (rendered as `none`) is a fatal
defect, never a silent repair.  The initial `outer_margin` is the `usize`
subtraction `outer_size - inner_size` (truncated subtraction here; the Rust
build would already have panicked on underflow, which cannot occur under the
documented invariant). -/
def CuteWalker.mutate_kernel (w : CuteWalker) (config : GenerationConfig)
    (rnd : Rnd) : Option (CuteWalker × Rnd) :=
  let inner_size0 := w.inner_kernel.size
  let inner_circ0 := w.inner_kernel.circularity
  let outer_size0 := w.outer_kernel.size
  let outer_circ0 := w.outer_kernel.circularity
  let outer_margin0 := outer_size0 - inner_size0
  let step1 := rnd.with_probability config.inner_size_mut_prob
  let r1 := step1.2
  let branch1 : Nat × Rnd × Bool :=
    if step1.1 then
      let s := r1.sample_inner_kernel_size
      (s.1, s.2, true)
    else (inner_size0, r1.skip_n 2, false)
  let inner_size := branch1.1
  let step2 := branch1.2.1.with_probability config.outer_size_mut_prob
  let r2 := step2.2
  let branch2 : Nat × Rnd × Bool :=
    if step2.1 then
      let s := r2.sample_outer_kernel_margin
      (s.1, s.2, true)
    else (outer_margin0, r2.skip_n 2, false)
  let outer_margin := branch2.1
  let step3 := branch2.2.1.with_probability config.inner_rad_mut_prob
  let r3 := step3.2
  let branch3 : ℚ × Rnd × Bool :=
    if step3.1 then
      let s := r3.sample_circularity
      (s.1, s.2, true)
    else (inner_circ0, r3.skip_n 2, false)
  let inner_circ := branch3.1
  let step4 := branch3.2.1.with_probability config.outer_rad_mut_prob
  let r4 := step4.2
  let branch4 : ℚ × Rnd × Bool :=
    if step4.1 then
      let s := r4.sample_circularity
      (s.1, s.2, true)
    else (outer_circ0, r4.skip_n 2, false)
  let outer_circ := branch4.1
  let modified := branch1.2.2 || branch2.2.2 || branch3.2.2 || branch4.2.2
  let outer_size := inner_size + outer_margin
  let inner_circ := if inner_size ≤ 3 then 0 else inner_circ
  let outer_circ := if outer_size ≤ 3 then 0 else outer_circ
  if outer_size ≥ inner_size then
    some
      (if modified then
        { w with inner_kernel := Kernel.new inner_size inner_circ,
                 outer_kernel := Kernel.new outer_size outer_circ }
      else w, branch4.2.1)
  else none

/-- Replacing both kernels (or neither) preserves `outer size >= inner size`
when the replacements satisfy it. -/
lemma ite_kernels_size_le (c : Prop) [Decidable c] (w : CuteWalker)
    (k1 k2 : Kernel) (h1 : k1.size ≤ k2.size)
    (h2 : w.inner_kernel.size ≤ w.outer_kernel.size) :
    (if c then { w with inner_kernel := k1, outer_kernel := k2 }
     else w).inner_kernel.size ≤
      (if c then { w with inner_kernel := k1, outer_kernel := k2 }
       else w).outer_kernel.size := by
  split
  · exact h1
  · exact h2

/-- C4: for every configuration and random-source state, `mutate_kernel`
returns normally (its closing `assert!(outer_size >= inner_size)` can never
fire, since the outer size is recomputed as inner size plus the sampled
margin), and afterwards the walker's outer kernel size is ≥ its inner kernel
size whenever that held before the call. -/
theorem mutate_kernel_outer_ge_inner (w : CuteWalker)
    (config : GenerationConfig) (rnd : Rnd)
    (h : w.inner_kernel.size ≤ w.outer_kernel.size) :
    ∃ w' rnd', w.mutate_kernel config rnd = some (w', rnd') ∧
      w'.inner_kernel.size ≤ w'.outer_kernel.size := by
  unfold CuteWalker.mutate_kernel
  rw [if_pos (Nat.le_add_right _ _)]
  refine ⟨_, _, rfl, ?_⟩
  exact ite_kernels_size_le _ w _ _ (Nat.le_add_right _ _) h

/-- Witness for C4: starting from the square 3-kernels (outer ≥ inner holds),
a concrete all-zero random stream lets `mutate_kernel` return, and the
resulting kernels satisfy outer size ≥ inner size. -/
theorem mutate_kernel_outer_ge_inner_witness :
    walker22.inner_kernel.size ≤ walker22.outer_kernel.size ∧
    ∃ w' rnd',
      walker22.mutate_kernel
        { inner_size_mut_prob := 1/2, outer_size_mut_prob := 1/2,
          inner_rad_mut_prob := 1/2, outer_rad_mut_prob := 1/2,
          momentum_prob := 0, enable_pulse := false, pulse_straight_delay := 10,
          pulse_corner_delay := 10, pulse_max_kernel_size := 5, fade_steps := 0,
          max_distance := 5, waypoint_reached_dist := 4,
          inner_size_probs_values := [3, 5] }
        { bools := fun _ => true, nats := fun _ => 4, qs := fun _ => 0,
          idx := 0 } = some (w', rnd') ∧
      w'.inner_kernel.size ≤ w'.outer_kernel.size := by
  exact ⟨by decide, mutate_kernel_outer_ge_inner _ _ _ (by decide)⟩

/-- `usize::checked_sub` with subtrahend 1 generalized: `none` is the Rust
`None` (underflow). -/
def checked_sub (a b : Nat) : Option Nat :=
  if b ≤ a then some (a - b) else none

/-- The `(dx, dy)` pairs visited by the 0..=2 double loop of `fix_edge_bugs`
(src/post_processing.rs lines 27-31; identically src/generator.rs lines
116-120), in iteration order, the center `(1,1)` skipped. -/
def neighbor_offsets : List (Nat × Nat) :=
  [(0, 0), (0, 1), (0, 2), (1, 0), (1, 2), (2, 0), (2, 1), (2, 2)]

/-- One iteration of the neighbor loop of `fix_edge_bugs`: compute the
checked-subtraction neighbor indices (`?`-propagating the out-of-bounds
error) and set the edge-bug flag if the in-bounds neighbor is `Hookable`
(src/post_processing.rs lines 33-47). -/
def ebc_step (g : Nat → Nat → BlockType) (width height x y : Nat)
    (acc : Bool) (o : Nat × Nat) : Except String Bool :=
  match checked_sub (x + o.1) 1 with
  | none => Except.error "fix edge bug out of bounds"
  | some neighbor_x =>
    match checked_sub (y + o.2) 1 with
    | none => Except.error "fix edge bug out of bounds"
    | some neighbor_y =>
      if neighbor_x < width ∧ neighbor_y < height ∧
          g neighbor_x neighbor_y = BlockType.Hookable then
        Except.ok true
      else Except.ok acc

/-- The full neighbor loop of `fix_edge_bugs` for one cell: the edge-bug
flag after scanning the eight offsets, or the propagated error. -/
def edge_bug_check (g : Nat → Nat → BlockType) (width height x y : Nat) :
    Except String Bool :=
  neighbor_offsets.foldlM (ebc_step g width height x y) false

/-- One comparison of the neighbor loop, without the checked subtraction
(meaningful for `1 ≤ x`, `1 ≤ y`, where truncated subtraction agrees with the
checked one). -/
def hhn_step (g : Nat → Nat → BlockType) (width height x y : Nat)
    (acc : Bool) (o : Nat × Nat) : Bool :=
  if x + o.1 - 1 < width ∧ y + o.2 - 1 < height ∧
      g (x + o.1 - 1) (y + o.2 - 1) = BlockType.Hookable then
    true
  else acc

/-- Whether some in-bounds 8-neighbor of `(x, y)` is `Hookable`, as the
neighbor loop computes it. -/
def has_hookable_neighbor (g : Nat → Nat → BlockType) (width height x y : Nat) :
    Bool :=
  neighbor_offsets.foldl (hhn_step g width height x y) false

lemma ebc_step_eq (g : Nat → Nat → BlockType) (width height x y : Nat)
    (hx : 1 ≤ x) (hy : 1 ≤ y) (acc : Bool) (o : Nat × Nat) :
    ebc_step g width height x y acc o =
      Except.ok (hhn_step g width height x y acc o) := by
  unfold ebc_step checked_sub
  rw [if_pos (show 1 ≤ x + o.1 by omega), if_pos (show 1 ≤ y + o.2 by omega)]
  show (if x + o.1 - 1 < width ∧ y + o.2 - 1 < height ∧
      g (x + o.1 - 1) (y + o.2 - 1) = BlockType.Hookable then
    Except.ok true else Except.ok acc) = _
  unfold hhn_step
  split <;> rfl

lemma foldlM_of_ok {α : Type} (f : Bool → α → Except String Bool)
    (fb : Bool → α → Bool) (hf : ∀ acc o, f acc o = Except.ok (fb acc o)) :
    ∀ (L : List α) (acc : Bool), L.foldlM f acc = Except.ok (L.foldl fb acc)
  | [], acc => rfl
  | o :: L, acc => by
    rw [List.foldlM_cons, hf acc o]
    show (L.foldlM f (fb acc o)) = _
    rw [foldlM_of_ok f fb hf L (fb acc o), List.foldl_cons]

lemma edge_bug_check_interior (g : Nat → Nat → BlockType)
    (width height x y : Nat) (hx : 1 ≤ x) (hy : 1 ≤ y) :
    edge_bug_check g width height x y =
      Except.ok (has_hookable_neighbor g width height x y) :=
  foldlM_of_ok _ _ (ebc_step_eq g width height x y hx hy) neighbor_offsets false

lemma edge_bug_check_border (g : Nat → Nat → BlockType)
    (width height x y : Nat) (hxy : x = 0 ∨ y = 0) :
    edge_bug_check g width height x y =
      Except.error "fix edge bug out of bounds" := by
  rcases hxy with rfl | rfl
  · rfl
  · cases x with
    | zero => rfl
    | succ x' =>
      show (ebc_step g width height _ _ false (0, 0)) >>= _ = _
      unfold ebc_step checked_sub
      rw [if_pos (show 1 ≤ x' + 1 + 0 by omega),
        if_neg (show ¬ 1 ≤ 0 + 0 by omega)]
      rfl

/-- Processing of one cell by `fix_edge_bugs` (src/post_processing.rs lines
25-53): non-`Empty` cells are skipped; an `Empty` cell runs the neighbor
loop, a loop error aborts the pass (grid kept as mutated so far), and an
edge-bug cell is rewritten to `Freeze`. -/
def feb_step (width height : Nat) (g : Nat → Nat → BlockType) (c : Nat × Nat) :
    (Nat → Nat → BlockType) × Option String :=
  if g c.1 c.2 = BlockType.Empty then
    match edge_bug_check g width height c.1 c.2 with
    | Except.error e => (g, some e)
    | Except.ok bug =>
      (if bug then gset g c.1 c.2 BlockType.Freeze else g, none)
  else (g, none)

/-- The double scan loop of `fix_edge_bugs` over a list of cells: processes
cells in order, an error stopping the scan (`?` propagates out of the Rust
function) while keeping the grid mutations made so far. -/
def feb_go (width height : Nat) :
    List (Nat × Nat) → (Nat → Nat → BlockType) →
      (Nat → Nat → BlockType) × Option String
  | [], g => (g, none)
  | c :: rest, g =>
    match feb_step width height g c with
    | (g1, some e) => (g1, some e)
    | (g1, none) => feb_go width height rest g1

/-- The scan order of the Rust double loop: `x` outer over `0..width`, `y`
inner over `0..height`. -/
def coord_list (width height : Nat) : List (Nat × Nat) :=
  (List.range width).bind (fun x => (List.range height).map (fun y => (x, y)))

/-- `fix_edge_bugs` (src/post_processing.rs lines 18-58; the same body is
`Generator::fix_edge_bugs`, src/generator.rs lines 107-146): scans every
cell, converting each `Empty` cell with a `Hookable` 8-neighbor to `Freeze`;
`some e` is the propagated `checked_sub` error, with the grid keeping all
conversions made before the abort (the Rust `&mut` map is mutated in place).
The returned boolean edge-bug layer only feeds a debug overlay and is not
modelled. -/
def fix_edge_bugs (m : Map) : Map × Option String :=
  let r := feb_go m.width m.height (coord_list m.width m.height) m.grid
  ({ m with grid := r.1 }, r.2)

lemma mem_coord_list (width height x y : Nat) :
    (x, y) ∈ coord_list width height ↔ x < width ∧ y < height := by
  simp only [coord_list, List.mem_bind, List.mem_map, List.mem_range]
  constructor
  · rintro ⟨a, ha, b, hb, hab⟩
    obtain ⟨rfl, rfl⟩ := Prod.mk.injEq .. ▸ hab
    omega
  · rintro ⟨hx, hy⟩
    exact ⟨x, hx, y, hy, rfl⟩

/-- `feb_step` on success: the single-cell conversion, described against the
input grid. -/
lemma feb_step_none (width height : Nat) (g : Nat → Nat → BlockType)
    (c : Nat × Nat) (h : (feb_step width height g c).2 = none) :
    (feb_step width height g c).1 =
      if g c.1 c.2 = BlockType.Empty ∧
          has_hookable_neighbor g width height c.1 c.2 = true then
        gset g c.1 c.2 BlockType.Freeze
      else g := by
  unfold feb_step at *
  by_cases he : g c.1 c.2 = BlockType.Empty
  · rw [if_pos he] at h ⊢
    by_cases hb : c.1 = 0 ∨ c.2 = 0
    · rw [edge_bug_check_border g width height c.1 c.2 hb] at h
      exact absurd h (by simp)
    · rw [edge_bug_check_interior g width height c.1 c.2 (by omega) (by omega)]
        at h ⊢
      by_cases hk : has_hookable_neighbor g width height c.1 c.2 = true
      · rw [if_pos ⟨he, hk⟩]
        show (if has_hookable_neighbor g width height c.1 c.2 then _ else _) = _
        rw [if_pos hk]
      · rw [if_neg (by tauto)]
        show (if has_hookable_neighbor g width height c.1 c.2 then _ else _) = _
        rw [if_neg hk]
  · rw [if_neg he] at h ⊢
    rw [if_neg (by tauto)]

/-- `feb_step` on success of an `Empty` cell: the cell cannot be on the
left/top border (the checked subtraction would have aborted). -/
lemma feb_step_none_interior (width height : Nat) (g : Nat → Nat → BlockType)
    (c : Nat × Nat) (h : (feb_step width height g c).2 = none)
    (he : g c.1 c.2 = BlockType.Empty) : 1 ≤ c.1 ∧ 1 ≤ c.2 := by
  by_contra hb
  unfold feb_step at h
  rw [if_pos he, edge_bug_check_border g width height c.1 c.2 (by omega)] at h
  exact absurd h (by simp)

/-- `feb_step` only ever rewrites its own cell, from `Empty` to `Freeze`. -/
lemma feb_step_pointwise (width height : Nat) (g : Nat → Nat → BlockType)
    (c : Nat × Nat) (a b : Nat) :
    (feb_step width height g c).1 a b = g a b ∨
      (g c.1 c.2 = BlockType.Empty ∧ a = c.1 ∧ b = c.2 ∧
        (feb_step width height g c).1 a b = BlockType.Freeze) := by
  unfold feb_step
  by_cases he : g c.1 c.2 = BlockType.Empty
  · rw [if_pos he]
    cases hck : edge_bug_check g width height c.1 c.2 with
    | error e => exact Or.inl rfl
    | ok bug =>
      cases bug with
      | false => exact Or.inl rfl
      | true =>
        by_cases hc : a = c.1 ∧ b = c.2
        · exact Or.inr ⟨he, hc.1, hc.2, by
            show gset g c.1 c.2 BlockType.Freeze a b = _
            unfold gset
            rw [if_pos hc]⟩
        · refine Or.inl ?_
          show gset g c.1 c.2 BlockType.Freeze a b = _
          unfold gset
          rw [if_neg hc]
  · rw [if_neg he]
    exact Or.inl rfl

/-- `feb_step` preserves which cells are `Hookable`. -/
lemma feb_step_hookable (width height : Nat) (g : Nat → Nat → BlockType)
    (c : Nat × Nat) (a b : Nat) :
    ((feb_step width height g c).1 a b = BlockType.Hookable ↔
      g a b = BlockType.Hookable) := by
  rcases feb_step_pointwise width height g c a b with hsame | ⟨he, rfl, rfl, hfr⟩
  · rw [hsame]
  · rw [hfr, he]
    constructor <;> (intro h'; exact absurd h' (by simp))

/-- `hhn_step` only depends on the grid through which cells are `Hookable`. -/
lemma hhn_step_congr (g1 g2 : Nat → Nat → BlockType)
    (hg : ∀ a b, g1 a b = BlockType.Hookable ↔ g2 a b = BlockType.Hookable)
    (width height x y : Nat) :
    hhn_step g1 width height x y = hhn_step g2 width height x y := by
  funext acc o
  unfold hhn_step
  exact if_congr (by rw [hg]) rfl rfl

lemma has_hookable_neighbor_congr (g1 g2 : Nat → Nat → BlockType)
    (hg : ∀ a b, g1 a b = BlockType.Hookable ↔ g2 a b = BlockType.Hookable)
    (width height x y : Nat) :
    has_hookable_neighbor g1 width height x y =
      has_hookable_neighbor g2 width height x y := by
  unfold has_hookable_neighbor
  rw [hhn_step_congr g1 g2 hg width height x y]

/-- On a successful scan, the final grid converts exactly the processed
`Empty` cells with a `Hookable` 8-neighbor to `Freeze` (conversions never
create or destroy `Hookable` cells, so the neighbor test may be read on the
input grid). -/
lemma feb_go_char (width height : Nat) :
    ∀ (cells : List (Nat × Nat)) (g : Nat → Nat → BlockType),
      (feb_go width height cells g).2 = none →
      ∀ x y, (feb_go width height cells g).1 x y =
        if (x, y) ∈ cells ∧ g x y = BlockType.Empty ∧
            has_hookable_neighbor g width height x y = true then
          BlockType.Freeze
        else g x y
  | [], g, _, x, y => by
    rw [if_neg (by simp)]
    rfl
  | c :: rest, g, hok, x, y => by
    have hok' : (match feb_step width height g c with
      | (g1, some e) => (g1, some e)
      | (g1, none) => feb_go width height rest g1).2 = none := hok
    show (match feb_step width height g c with
      | (g1, some e) => (g1, some e)
      | (g1, none) => feb_go width height rest g1).1 x y = _
    cases hstep : feb_step width height g c with
    | mk g1 err =>
      rw [hstep] at hok'
      cases err with
      | some e => exact Option.noConfusion hok'
      | none =>
        have hok2 : (feb_go width height rest g1).2 = none := hok'
        show (feb_go width height rest g1).1 x y = _
        have hstep2 : (feb_step width height g c).2 = none := by rw [hstep]
        have hchar : g1 =
            if g c.1 c.2 = BlockType.Empty ∧
                has_hookable_neighbor g width height c.1 c.2 = true then
              gset g c.1 c.2 BlockType.Freeze
            else g := by
          have := feb_step_none width height g c hstep2
          rw [hstep] at this
          exact this
        have hhook : ∀ a b, g1 a b = BlockType.Hookable ↔
            g a b = BlockType.Hookable := by
          intro a b
          have := feb_step_hookable width height g c a b
          rw [hstep] at this
          exact this
        rw [feb_go_char width height rest g1 hok2 x y,
          has_hookable_neighbor_congr g1 g hhook width height x y]
        by_cases hcc : g c.1 c.2 = BlockType.Empty ∧
            has_hookable_neighbor g width height c.1 c.2 = true
        · rw [if_pos hcc] at hchar
          by_cases hxy : x = c.1 ∧ y = c.2
          · have hg1xy : g1 x y = BlockType.Freeze := by
              rw [hchar]; unfold gset; rw [if_pos hxy]
            rw [hg1xy,
              if_neg (by rintro ⟨-, habs, -⟩; exact BlockType.noConfusion habs),
              if_pos ⟨List.mem_cons.mpr (Or.inl (by rw [hxy.1, hxy.2])),
                by rw [hxy.1, hxy.2]; exact hcc.1,
                by rw [hxy.1, hxy.2]; exact hcc.2⟩]
          · have hg1xy : g1 x y = g x y := by
              rw [hchar]; unfold gset; rw [if_neg hxy]
            rw [hg1xy]
            by_cases hcond : g x y = BlockType.Empty ∧
                has_hookable_neighbor g width height x y = true
            · by_cases hm : (x, y) ∈ rest
              · rw [if_pos ⟨hm, hcond⟩,
                  if_pos ⟨List.mem_cons_of_mem c hm, hcond⟩]
              · rw [if_neg (by tauto), if_neg (by
                  rintro ⟨hmm, -⟩
                  rcases List.mem_cons.mp hmm with heq | hm2
                  · exact hxy ⟨congrArg Prod.fst heq, congrArg Prod.snd heq⟩
                  · exact hm hm2)]
            · rw [if_neg (by tauto), if_neg (by tauto)]
        · rw [if_neg hcc] at hchar
          rw [hchar]
          by_cases hcond : g x y = BlockType.Empty ∧
              has_hookable_neighbor g width height x y = true
          · by_cases hm : (x, y) ∈ rest
            · rw [if_pos ⟨hm, hcond⟩,
                if_pos ⟨List.mem_cons_of_mem c hm, hcond⟩]
            · rw [if_neg (by tauto), if_neg (by
                rintro ⟨hmm, -⟩
                rcases List.mem_cons.mp hmm with heq | hm2
                · refine hcc ?_
                  rw [show c.1 = x from (congrArg Prod.fst heq).symm,
                    show c.2 = y from (congrArg Prod.snd heq).symm]
                  exact hcond
                · exact hm hm2)]
          · rw [if_neg (by tauto), if_neg (by tauto)]

/-- If some cell in the remaining scan list sits on the left/top border and
is `Empty`, the scan aborts with the checked-subtraction error (conversions
never produce `Empty`, so the border cell is still `Empty` when reached). -/
lemma feb_go_err (width height : Nat) :
    ∀ (cells : List (Nat × Nat)) (g : Nat → Nat → BlockType),
      (∃ c ∈ cells, (c.1 = 0 ∨ c.2 = 0) ∧ g c.1 c.2 = BlockType.Empty) →
      (feb_go width height cells g).2 = some "fix edge bug out of bounds"
  | [], g, hex => by
    obtain ⟨c, hc, -⟩ := hex
    exact absurd hc (by simp)
  | c0 :: rest, g, hex => by
    show (match feb_step width height g c0 with
      | (g1, some e) => (g1, some e)
      | (g1, none) => feb_go width height rest g1).2 = _
    cases hstep : feb_step width height g c0 with
    | mk g1 err =>
      cases err with
      | some e =>
        show some e = _
        have : e = "fix edge bug out of bounds" := by
          unfold feb_step at hstep
          by_cases he : g c0.1 c0.2 = BlockType.Empty
          · rw [if_pos he] at hstep
            cases hck : edge_bug_check g width height c0.1 c0.2 with
            | error e' =>
              rw [hck] at hstep
              have he' : e' = "fix edge bug out of bounds" := by
                by_cases hb : c0.1 = 0 ∨ c0.2 = 0
                · have := edge_bug_check_border g width height c0.1 c0.2 hb
                  rw [hck] at this
                  exact Except.error.injEq .. ▸ this
                · have := edge_bug_check_interior g width height c0.1 c0.2
                    (by omega) (by omega)
                  rw [hck] at this
                  exact Except.noConfusion this
              have := (Prod.mk.injEq .. ▸ hstep)
              rw [← he']
              exact ((Option.some.injEq .. ▸ this.2)).symm
            | ok bug =>
              rw [hck] at hstep
              have := (Prod.mk.injEq .. ▸ hstep).2
              exact Option.noConfusion this
          · rw [if_neg he] at hstep
            exact Option.noConfusion (Prod.mk.injEq .. ▸ hstep).2
        rw [this]
      | none =>
        show (feb_go width height rest g1).2 = _
        obtain ⟨c, hc, hb, he⟩ := hex
        have hstep2 : (feb_step width height g c0).2 = none := by rw [hstep]
        have hc0 : ¬ (c.1 = c0.1 ∧ c.2 = c0.2) := by
          rintro ⟨h1, h2⟩
          by_cases hce : g c0.1 c0.2 = BlockType.Empty
          · have := feb_step_none_interior width height g c0 hstep2 hce
            omega
          · rw [h1, h2] at he
            exact hce he
        have hcrest : c ∈ rest := by
          rcases List.mem_cons.mp hc with heq | hm
          · exact absurd ⟨congrArg Prod.fst heq, congrArg Prod.snd heq⟩ hc0
          · exact hm
        have hg1c : g1 c.1 c.2 = BlockType.Empty := by
          have hpw := feb_step_pointwise width height g c0 c.1 c.2
          rw [hstep] at hpw
          rcases hpw with hsame | ⟨-, h1, h2, -⟩
          · exact (show g1 c.1 c.2 = g c.1 c.2 from hsame).trans he
          · exact absurd ⟨h1, h2⟩ hc0
        exact feb_go_err width height rest g1 ⟨c, hcrest, hb, hg1c⟩

/-- 8-adjacency, indexed by the offsets of the scan loop: `(nx, ny)` results
from `(x, y)` by one of the eight non-center offsets (stated additively so
`usize` truncation cannot intrude). -/
def adj8 (x y nx ny : Nat) : Prop :=
  ∃ o ∈ neighbor_offsets, nx + 1 = x + o.1 ∧ ny + 1 = y + o.2

lemma foldl_hhn_iff (g : Nat → Nat → BlockType) (width height x y : Nat) :
    ∀ (L : List (Nat × Nat)) (acc : Bool),
      (L.foldl (hhn_step g width height x y) acc = true ↔
        acc = true ∨ ∃ o ∈ L, x + o.1 - 1 < width ∧ y + o.2 - 1 < height ∧
          g (x + o.1 - 1) (y + o.2 - 1) = BlockType.Hookable)
  | [], acc => by simp
  | o0 :: L, acc => by
    rw [List.foldl_cons, foldl_hhn_iff g width height x y L]
    unfold hhn_step
    constructor
    · rintro (hstep | hex)
      · by_cases hcond : x + o0.1 - 1 < width ∧ y + o0.2 - 1 < height ∧
            g (x + o0.1 - 1) (y + o0.2 - 1) = BlockType.Hookable
        · exact Or.inr ⟨o0, List.mem_cons_self o0 L, hcond⟩
        · rw [if_neg hcond] at hstep
          exact Or.inl hstep
      · obtain ⟨o, ho, hcond⟩ := hex
        exact Or.inr ⟨o, List.mem_cons_of_mem o0 ho, hcond⟩
    · rintro (hacc | ⟨o, ho, hcond⟩)
      · left
        split
        · rfl
        · exact hacc
      · rcases List.mem_cons.mp ho with rfl | hm
        · rw [if_pos hcond]
          exact Or.inl rfl
        · exact Or.inr ⟨o, hm, hcond⟩

/-- For interior cells the neighbor-loop test agrees with "some in-bounds
8-neighbor is `Hookable`". -/
lemma has_hookable_neighbor_iff (g : Nat → Nat → BlockType)
    (width height x y : Nat) (hx : 1 ≤ x) (hy : 1 ≤ y) :
    has_hookable_neighbor g width height x y = true ↔
      ∃ nx ny, nx < width ∧ ny < height ∧ adj8 x y nx ny ∧
        g nx ny = BlockType.Hookable := by
  unfold has_hookable_neighbor
  rw [foldl_hhn_iff g width height x y neighbor_offsets false]
  constructor
  · rintro (habs | ⟨o, ho, h1, h2, h3⟩)
    · exact Bool.noConfusion habs
    · refine ⟨x + o.1 - 1, y + o.2 - 1, h1, h2, ⟨o, ho, ?_, ?_⟩, h3⟩
      · omega
      · omega
  · rintro ⟨nx, ny, h1, h2, ⟨o, ho, ha1, ha2⟩, h3⟩
    refine Or.inr ⟨o, ho, ?_⟩
    have hxx : nx = x + o.1 - 1 := by omega
    have hyy : ny = y + o.2 - 1 := by omega
    rw [← hxx, ← hyy]
    exact ⟨h1, h2, h3⟩

/-- On a successful pass, every in-bounds `Empty` cell lies off the left/top
border (a border `Empty` cell would have aborted the scan). -/
lemma fix_edge_bugs_none_interior (m : Map) (h : (fix_edge_bugs m).2 = none)
    (x y : Nat) (hx : x < m.width) (hy : y < m.height)
    (he : m.grid x y = BlockType.Empty) : 1 ≤ x ∧ 1 ≤ y := by
  by_contra hb
  have herr := feb_go_err m.width m.height (coord_list m.width m.height) m.grid
    ⟨(x, y), (mem_coord_list m.width m.height x y).mpr ⟨hx, hy⟩, by omega, he⟩
  have hgo : (feb_go m.width m.height (coord_list m.width m.height)
      m.grid).2 = none := h
  exact Option.noConfusion (herr.symm.trans hgo)

/-- C5: whenever edge-bug repair returns successfully, afterwards no `Empty`
cell has a `Hookable` cell among its in-bounds 8-neighbors; every `Empty`
cell that had an in-bounds `Hookable` 8-neighbor has been converted to
`Freeze`; and no other cell (in bounds or out) was changed. -/
theorem fix_edge_bugs_spec (m : Map) (h : (fix_edge_bugs m).2 = none) :
    (∀ x y, x < m.width → y < m.height →
      (fix_edge_bugs m).1.grid x y = BlockType.Empty →
      ∀ nx ny, nx < m.width → ny < m.height → adj8 x y nx ny →
        (fix_edge_bugs m).1.grid nx ny ≠ BlockType.Hookable) ∧
    (∀ x y, x < m.width → y < m.height → m.grid x y = BlockType.Empty →
      (∃ nx ny, nx < m.width ∧ ny < m.height ∧ adj8 x y nx ny ∧
        m.grid nx ny = BlockType.Hookable) →
      (fix_edge_bugs m).1.grid x y = BlockType.Freeze) ∧
    (∀ x y, x < m.width → y < m.height →
      ¬ (m.grid x y = BlockType.Empty ∧ ∃ nx ny, nx < m.width ∧ ny < m.height ∧
          adj8 x y nx ny ∧ m.grid nx ny = BlockType.Hookable) →
      (fix_edge_bugs m).1.grid x y = m.grid x y) ∧
    (∀ x y, m.width ≤ x ∨ m.height ≤ y →
      (fix_edge_bugs m).1.grid x y = m.grid x y) := by
  have hgo : (feb_go m.width m.height (coord_list m.width m.height)
      m.grid).2 = none := h
  have hchar := feb_go_char m.width m.height (coord_list m.width m.height)
    m.grid hgo
  have hgrid : ∀ x y, (fix_edge_bugs m).1.grid x y =
      if (x, y) ∈ coord_list m.width m.height ∧
          m.grid x y = BlockType.Empty ∧
          has_hookable_neighbor m.grid m.width m.height x y = true then
        BlockType.Freeze
      else m.grid x y := hchar
  have hpres : ∀ a b, (fix_edge_bugs m).1.grid a b = BlockType.Hookable →
      m.grid a b = BlockType.Hookable := by
    intro a b hh
    rw [hgrid a b] at hh
    by_cases hc : (a, b) ∈ coord_list m.width m.height ∧
        m.grid a b = BlockType.Empty ∧
        has_hookable_neighbor m.grid m.width m.height a b = true
    · rw [if_pos hc] at hh
      exact absurd hh (by simp)
    · rw [if_neg hc] at hh
      exact hh
  refine ⟨?_, ?_, ?_, ?_⟩
  · intro x y hx hy he nx ny hnx hny hadj habs
    have hmem := (mem_coord_list m.width m.height x y).mpr ⟨hx, hy⟩
    rw [hgrid x y] at he
    by_cases hc : (x, y) ∈ coord_list m.width m.height ∧
        m.grid x y = BlockType.Empty ∧
        has_hookable_neighbor m.grid m.width m.height x y = true
    · rw [if_pos hc] at he
      exact absurd he (by simp)
    · rw [if_neg hc] at he
      obtain ⟨hx1, hy1⟩ := fix_edge_bugs_none_interior m h x y hx hy he
      have hnone : ¬ has_hookable_neighbor m.grid m.width m.height x y = true :=
        fun hk => hc ⟨hmem, he, hk⟩
      rw [has_hookable_neighbor_iff m.grid m.width m.height x y hx1 hy1]
        at hnone
      exact hnone ⟨nx, ny, hnx, hny, hadj, hpres nx ny habs⟩
  · intro x y hx hy he hex
    obtain ⟨hx1, hy1⟩ := fix_edge_bugs_none_interior m h x y hx hy he
    have hk : has_hookable_neighbor m.grid m.width m.height x y = true :=
      (has_hookable_neighbor_iff m.grid m.width m.height x y hx1 hy1).mpr hex
    rw [hgrid x y,
      if_pos ⟨(mem_coord_list m.width m.height x y).mpr ⟨hx, hy⟩, he, hk⟩]
  · intro x y hx hy hnc
    rw [hgrid x y]
    refine if_neg ?_
    rintro ⟨hmem, he, hk⟩
    obtain ⟨hx1, hy1⟩ := fix_edge_bugs_none_interior m h x y hx hy he
    exact hnc ⟨he,
      (has_hookable_neighbor_iff m.grid m.width m.height x y hx1 hy1).mp hk⟩
  · intro x y hout
    rw [hgrid x y]
    refine if_neg ?_
    rintro ⟨hmem, -⟩
    have := (mem_coord_list m.width m.height x y).mp hmem
    omega

/-- A 3×3 map, all `Hookable` except an `Empty` center: the edge-bug pass
succeeds and repairs the center. -/
def center_empty_map : Map :=
  { width := 3, height := 3,
    grid := fun x y => if x = 1 ∧ y = 1 then BlockType.Empty
      else BlockType.Hookable,
    spawn := ⟨0, 0⟩ }

/-- Witness for C5 at a concrete input: on the 3×3 map the pass succeeds and
the `Empty` center, 8-adjacent to `Hookable` (0,0), is converted to
`Freeze`. -/
theorem fix_edge_bugs_spec_witness :
    (fix_edge_bugs center_empty_map).2 = none ∧
    (fix_edge_bugs center_empty_map).1.grid 1 1 = BlockType.Freeze := by
  refine ⟨by decide, ?_⟩
  exact (fix_edge_bugs_spec center_empty_map (by decide)).2.1 1 1
    (by decide) (by decide) (by decide)
    ⟨0, 0, by decide, by decide, ⟨(0, 0), by decide, rfl, rfl⟩, by decide⟩

/-- A 4×4 map, all `Hookable` except `Empty` at the interior cell (1,1) and
at the border cell (3,0). -/
def border_empty_map : Map :=
  { width := 4, height := 4,
    grid := fun x y =>
      if (x = 1 ∧ y = 1) ∨ (x = 3 ∧ y = 0) then BlockType.Empty
      else BlockType.Hookable,
    spawn := ⟨0, 0⟩ }

/-- C10: if the grid has an `Empty` cell in its first row or first column,
edge-bug repair aborts with the error "fix edge bug out of bounds" (the
checked subtraction `0 - 1` underflows); and the pass is not atomic on error:
on the concrete 4×4 map the interior `Empty` cell (1,1), scanned before the
border cell (3,0), stays converted to `Freeze` in the aborted map. -/
theorem fix_edge_bugs_border_abort :
    (∀ m : Map, (∃ x y, x < m.width ∧ y < m.height ∧ (x = 0 ∨ y = 0) ∧
        m.grid x y = BlockType.Empty) →
      (fix_edge_bugs m).2 = some "fix edge bug out of bounds") ∧
    ((fix_edge_bugs border_empty_map).2 = some "fix edge bug out of bounds" ∧
      border_empty_map.grid 1 1 = BlockType.Empty ∧
      (fix_edge_bugs border_empty_map).1.grid 1 1 = BlockType.Freeze) := by
  constructor
  · rintro m ⟨x, y, hx, hy, hb, he⟩
    exact feb_go_err m.width m.height (coord_list m.width m.height) m.grid
      ⟨(x, y), (mem_coord_list m.width m.height x y).mpr ⟨hx, hy⟩, hb, he⟩
  · exact ⟨by decide, by decide, by decide⟩

/-- Witness for C10: the abort theorem applied to the concrete 4×4 map. -/
theorem fix_edge_bugs_border_abort_witness :
    (fix_edge_bugs border_empty_map).2 = some "fix edge bug out of bounds" :=
  fix_edge_bugs_border_abort.1 border_empty_map
    ⟨3, 0, by decide, by decide, Or.inr rfl, by decide⟩

/-- Absolute difference of `usize` coordinates. -/
def delta (a b : Nat) : Nat := (a - b) + (b - a)

/-- Squared Euclidean distance between grid cells. -/
def sq_dist (x y u v : Nat) : Nat := delta x u ^ 2 + delta y v ^ 2

/-- The cells of the "non-empty" boolean mask `grid.map(|val| *val !=
BlockType::Empty)` (src/post_processing.rs line 63). -/
def non_empty_cells (m : Map) : List (Nat × Nat) :=
  (coord_list m.width m.height).filter
    (fun c => decide (m.grid c.1 c.2 ≠ BlockType.Empty))

/-- Minimum accumulator over an optional running minimum. -/
def option_min (acc : Option Nat) (d : Nat) : Option Nat :=
  match acc with
  | none => some d
  | some k => some (Nat.min k d)

/-- The exact Euclidean distance transform `dt_bool` of src/post_processing.rs
lines 66-68, kept squared: the minimum squared distance from `(x, y)` to a
non-`Empty` cell (`none` when the grid has no non-`Empty` cell — the
transform is infinite there). -/
def nearest_sq (m : Map) (x y : Nat) : Option Nat :=
  ((non_empty_cells m).map (fun c => sq_dist x y c.1 c.2)).foldl option_min none

/-- Decides `(mq : ℝ) < Real.sqrt k` by squaring. -/
def sqrt_gtq (k : Nat) (mq : ℚ) : Bool :=
  if 0 ≤ mq then decide (mq ^ 2 < (k : ℚ)) else true

/-- Decides `(mq : ℝ) + Real.sqrt 2 < 0` by squaring. -/
def q_add_sqrt2_neg (mq : ℚ) : Bool := decide (mq < 0 ∧ 2 < mq ^ 2)

/-- Decides `(p : ℝ) * Real.sqrt 2 < A` by squaring with sign analysis. -/
def qlt_sqrt2mul (p A : ℚ) : Bool :=
  if 0 ≤ p then decide (0 < A ∧ 2 * p ^ 2 < A ^ 2)
  else decide (0 ≤ A ∨ A ^ 2 < 2 * p ^ 2)

/-- Decides `(mq : ℝ) + Real.sqrt 2 < Real.sqrt k`: the comparison
`*distance > *max_distance + SQRT_2` of the fill pass on the exact reals. -/
def sqrt_gt_add_sqrt2 (k : Nat) (mq : ℚ) : Bool :=
  q_add_sqrt2_neg mq || qlt_sqrt2mul (2 * mq) ((k : ℚ) - mq ^ 2 - 2)

lemma sqrt_gtq_iff (k : Nat) (mq : ℚ) :
    sqrt_gtq k mq = true ↔ (mq : ℝ) < Real.sqrt (k : ℝ) := by
  unfold sqrt_gtq
  by_cases hm : (0 : ℚ) ≤ mq
  · rw [if_pos hm, decide_eq_true_eq,
      Real.lt_sqrt (show (0:ℝ) ≤ (mq:ℝ) by exact_mod_cast hm)]
    constructor
    · intro h'; exact_mod_cast h'
    · intro h'; exact_mod_cast h'
  · rw [if_neg hm]
    constructor
    · intro _
      have hneg : (mq : ℝ) < 0 := by exact_mod_cast not_le.mp hm
      exact lt_of_lt_of_le hneg (Real.sqrt_nonneg _)
    · intro _; rfl

lemma q_add_sqrt2_neg_iff (mq : ℚ) :
    q_add_sqrt2_neg mq = true ↔ (mq : ℝ) + Real.sqrt 2 < 0 := by
  unfold q_add_sqrt2_neg
  rw [decide_eq_true_eq]
  constructor
  · rintro ⟨hneg, hsq⟩
    have h1 : (0 : ℝ) < -(mq : ℝ) := by
      have : (mq : ℝ) < 0 := by exact_mod_cast hneg
      linarith
    have h2 : (2 : ℝ) < (-(mq : ℝ)) ^ 2 := by
      have : (2 : ℝ) < (mq : ℝ) ^ 2 := by exact_mod_cast hsq
      nlinarith
    have := (Real.sqrt_lt' h1).mpr h2
    linarith
  · intro h'
    have h2 : Real.sqrt 2 < -(mq : ℝ) := by linarith
    have h0 : (0 : ℝ) < -(mq : ℝ) := lt_of_le_of_lt (Real.sqrt_nonneg 2) h2
    have hsq := (Real.sqrt_lt' h0).mp h2
    constructor
    · have : (mq : ℝ) < 0 := by linarith
      exact_mod_cast this
    · have : (2 : ℝ) < (mq : ℝ) ^ 2 := by nlinarith
      exact_mod_cast this

lemma qlt_sqrt2mul_iff (p A : ℚ) :
    qlt_sqrt2mul p A = true ↔ (p : ℝ) * Real.sqrt 2 < (A : ℝ) := by
  have h2 : Real.sqrt 2 ^ 2 = 2 := Real.sq_sqrt (by norm_num)
  have h2n : (0 : ℝ) ≤ Real.sqrt 2 := Real.sqrt_nonneg 2
  have h2p : (0 : ℝ) < Real.sqrt 2 := Real.sqrt_pos.mpr (by norm_num)
  unfold qlt_sqrt2mul
  by_cases hp : (0 : ℚ) ≤ p
  · rw [if_pos hp, decide_eq_true_eq]
    have hpR : (0 : ℝ) ≤ (p : ℝ) := by exact_mod_cast hp
    constructor
    · rintro ⟨hA, hsq⟩
      have hAR : (0 : ℝ) < (A : ℝ) := by exact_mod_cast hA
      have hsqR : 2 * (p : ℝ) ^ 2 < (A : ℝ) ^ 2 := by exact_mod_cast hsq
      nlinarith [mul_nonneg hpR h2n]
    · intro hlt
      have hA : (0 : ℝ) < (A : ℝ) := lt_of_le_of_lt (mul_nonneg hpR h2n) hlt
      refine ⟨by exact_mod_cast hA, ?_⟩
      have : 2 * (p : ℝ) ^ 2 < (A : ℝ) ^ 2 := by
        nlinarith [mul_nonneg hpR h2n]
      exact_mod_cast this
  · rw [if_neg hp, decide_eq_true_eq]
    have hpR : (p : ℝ) < 0 := by exact_mod_cast not_le.mp hp
    have hstrict : (p : ℝ) * Real.sqrt 2 < 0 := mul_neg_of_neg_of_pos hpR h2p
    have hps : ((p : ℝ) * Real.sqrt 2) ^ 2 = 2 * (p : ℝ) ^ 2 := by
      rw [mul_pow, h2]; ring
    constructor
    · rintro (hA | hsq)
      · exact lt_of_lt_of_le hstrict (by exact_mod_cast hA)
      · by_cases hA0 : (0 : ℚ) ≤ A
        · exact lt_of_lt_of_le hstrict (by exact_mod_cast hA0)
        · have hAR : (A : ℝ) < 0 := by exact_mod_cast not_le.mp hA0
          have hsqR : (A : ℝ) ^ 2 < 2 * (p : ℝ) ^ 2 := by exact_mod_cast hsq
          by_contra hh
          push_neg at hh
          nlinarith
    · intro hlt
      by_cases hA0 : (0 : ℚ) ≤ A
      · exact Or.inl hA0
      · right
        have hAR : (A : ℝ) < 0 := by exact_mod_cast not_le.mp hA0
        have : (A : ℝ) ^ 2 < 2 * (p : ℝ) ^ 2 := by nlinarith
        exact_mod_cast this

lemma sqrt_gt_add_sqrt2_iff (k : Nat) (mq : ℚ) :
    sqrt_gt_add_sqrt2 k mq = true ↔
      (mq : ℝ) + Real.sqrt 2 < Real.sqrt (k : ℝ) := by
  have h2 : Real.sqrt 2 ^ 2 = 2 := Real.sq_sqrt (by norm_num)
  unfold sqrt_gt_add_sqrt2
  rw [Bool.or_eq_true, q_add_sqrt2_neg_iff, qlt_sqrt2mul_iff]
  constructor
  · rintro (hneg | hmul)
    · exact lt_of_lt_of_le hneg (Real.sqrt_nonneg _)
    · by_cases hsign : (0 : ℝ) ≤ (mq : ℝ) + Real.sqrt 2
      · rw [Real.lt_sqrt hsign]
        push_cast at hmul
        nlinarith
      · exact lt_of_lt_of_le (not_le.mp hsign) (Real.sqrt_nonneg _)
  · intro hlt
    by_cases hneg : (mq : ℝ) + Real.sqrt 2 < 0
    · exact Or.inl hneg
    · right
      push_neg at hneg
      have := (Real.lt_sqrt hneg).mp hlt
      push_cast
      nlinarith

/-- The running minimum over a list: the result bounds every element and the
initial accumulator, and is attained by one of them. -/
lemma fold_min_spec (L : List Nat) : ∀ (acc : Option Nat) (k : Nat),
    L.foldl option_min acc = some k →
    (∀ d ∈ L, k ≤ d) ∧ (∀ j, acc = some j → k ≤ j) ∧
      (k ∈ L ∨ acc = some k) := by
  induction L with
  | nil =>
    intro acc k hk
    refine ⟨by simp, ?_, Or.inr hk⟩
    intro j hj
    rw [hj] at hk
    exact Nat.le_of_eq (Option.some.injEq .. ▸ hk.symm)
  | cons d0 rest ih =>
    intro acc k hk
    rw [List.foldl_cons] at hk
    obtain ⟨h1, h2, h3⟩ := ih (option_min acc d0) k hk
    have hacc' : ∀ j, acc = some j →
        option_min acc d0 = some (Nat.min j d0) := by
      intro j hj; rw [hj]; rfl
    have hk_le_d0 : k ≤ d0 := by
      cases hacc : acc with
      | none => exact h2 d0 (by rw [hacc]; rfl)
      | some j0 =>
        exact le_trans (h2 (Nat.min j0 d0) (hacc' j0 hacc))
          (Nat.min_le_right j0 d0)
    refine ⟨?_, ?_, ?_⟩
    · intro d hd
      rcases List.mem_cons.mp hd with rfl | hdm
      · exact hk_le_d0
      · exact h1 d hdm
    · intro j hj
      exact le_trans (h2 (Nat.min j d0) (hacc' j hj)) (Nat.min_le_left j d0)
    · rcases h3 with hmem | hacc2
      · exact Or.inl (List.mem_cons_of_mem d0 hmem)
      · cases hacc : acc with
        | none =>
          rw [hacc] at hacc2
          have : d0 = k := Option.some.injEq .. ▸ hacc2
          exact Or.inl (List.mem_cons.mpr (Or.inl this.symm))
        | some j0 =>
          rw [hacc' j0 hacc] at hacc2
          have hk2 : Nat.min j0 d0 = k := Option.some.injEq .. ▸ hacc2
          rcases Nat.le_total j0 d0 with hle | hle
          · refine Or.inr ?_
            exact congrArg some ((Nat.min_eq_left hle).symm.trans hk2)
          · refine Or.inl (List.mem_cons.mpr (Or.inl ?_))
            exact (((Nat.min_eq_right hle).symm.trans hk2).symm)

lemma fold_min_some_acc (L : List Nat) : ∀ j, ∃ k,
    L.foldl option_min (some j) = some k := by
  induction L with
  | nil => exact fun j => ⟨j, rfl⟩
  | cons d0 rest ih =>
    intro j
    rw [List.foldl_cons]
    exact ih (Nat.min j d0)

/-- A member of the list forces the running minimum to exist and bound it. -/
lemma fold_min_of_mem (L : List Nat) (d : Nat) (hd : d ∈ L) (acc : Option Nat) :
    ∃ k, L.foldl option_min acc = some k ∧ k ≤ d := by
  have hsome : ∃ k, L.foldl option_min acc = some k := by
    cases L with
    | nil => exact absurd hd (by simp)
    | cons d0 rest =>
      rw [List.foldl_cons]
      cases acc with
      | none => exact fold_min_some_acc rest d0
      | some j0 => exact fold_min_some_acc rest (Nat.min j0 d0)
  obtain ⟨k, hk⟩ := hsome
  exact ⟨k, hk, (fold_min_spec L acc k hk).1 d hd⟩

/-- The per-cell rewrite of `zip_mut_with` in `fill_open_areas`
(src/post_processing.rs lines 70-83; identically `Generator::fill_area`,
src/generator.rs lines 150-174): only `Empty` cells are modified; distance
strictly above `max_distance + √2` becomes `Hookable`, strictly above
`max_distance` becomes `Freeze`.  A cell with no non-`Empty` cell anywhere
has infinite transform distance, which exceeds both thresholds. -/
def filled_grid (m : Map) (max_distance : ℚ) : Nat → Nat → BlockType :=
  fun x y =>
    if x < m.width ∧ y < m.height then
      if m.grid x y ≠ BlockType.Empty then m.grid x y
      else
        match nearest_sq m x y with
        | none => BlockType.Hookable
        | some k =>
          if sqrt_gt_add_sqrt2 k max_distance then BlockType.Hookable
          else if sqrt_gtq k max_distance then BlockType.Freeze
          else m.grid x y
    else m.grid x y

/-- `fill_open_areas` (src/post_processing.rs lines 62-86): Euclidean
distance transform of the non-`Empty` mask, then the per-cell rewrite.  The
returned distance array only feeds the caller and is recomputable as
`nearest_sq`. -/
def fill_open_areas (m : Map) (max_distance : ℚ) : Map :=
  { m with grid := filled_grid m max_distance }

/-- Cells that are non-`Empty` stay non-`Empty` under the fill pass. -/
lemma fill_open_areas_preserves_non_empty (m : Map) (max_distance : ℚ)
    (a b : Nat) (h : m.grid a b ≠ BlockType.Empty) :
    (fill_open_areas m max_distance).grid a b ≠ BlockType.Empty := by
  show filled_grid m max_distance a b ≠ BlockType.Empty
  unfold filled_grid
  by_cases hin : a < m.width ∧ b < m.height
  · rw [if_pos hin, if_pos h]
    exact h
  · rw [if_neg hin]
    exact h

/-- C6: the distance-based fill modifies only `Empty` cells — with `d` the
Euclidean distance to the nearest non-`Empty` cell, `d > max_distance + √2`
becomes `Hookable`, `max_distance < d ≤ max_distance + √2` becomes `Freeze`,
`d ≤ max_distance` stays `Empty` — non-`Empty` and out-of-bounds cells are
unchanged, and afterwards no `Empty` cell's nearest non-`Empty` distance
exceeds `max_distance + √2`. -/
theorem fill_open_areas_spec (m : Map) (max_distance : ℚ) (x y : Nat)
    (hx : x < m.width) (hy : y < m.height) :
    (m.grid x y ≠ BlockType.Empty →
      (fill_open_areas m max_distance).grid x y = m.grid x y) ∧
    (∀ k, m.grid x y = BlockType.Empty → nearest_sq m x y = some k →
      (((max_distance : ℝ) + Real.sqrt 2 < Real.sqrt (k : ℝ) →
        (fill_open_areas m max_distance).grid x y = BlockType.Hookable) ∧
      ((max_distance : ℝ) < Real.sqrt (k : ℝ) ∧
          Real.sqrt (k : ℝ) ≤ (max_distance : ℝ) + Real.sqrt 2 →
        (fill_open_areas m max_distance).grid x y = BlockType.Freeze) ∧
      (Real.sqrt (k : ℝ) ≤ (max_distance : ℝ) →
        (fill_open_areas m max_distance).grid x y = BlockType.Empty))) ∧
    ((fill_open_areas m max_distance).grid x y = BlockType.Empty →
      ∀ k', nearest_sq (fill_open_areas m max_distance) x y = some k' →
        Real.sqrt (k' : ℝ) ≤ (max_distance : ℝ) + Real.sqrt 2) := by
  have hgrid : ∀ a b, (fill_open_areas m max_distance).grid a b =
      filled_grid m max_distance a b := fun a b => rfl
  refine ⟨?_, ?_, ?_⟩
  · intro hne
    rw [hgrid, filled_grid, if_pos ⟨hx, hy⟩, if_pos hne]
  · intro k he hk
    have hbase : (fill_open_areas m max_distance).grid x y =
        (if sqrt_gt_add_sqrt2 k max_distance then BlockType.Hookable
         else if sqrt_gtq k max_distance then BlockType.Freeze
         else m.grid x y) := by
      rw [hgrid, filled_grid, if_pos ⟨hx, hy⟩, if_neg (by
        rw [he]; exact fun hcon => hcon rfl), hk]
    refine ⟨?_, ?_, ?_⟩
    · intro hgt
      rw [hbase, if_pos ((sqrt_gt_add_sqrt2_iff k max_distance).mpr hgt)]
    · rintro ⟨hgt, hle⟩
      have h1 : sqrt_gt_add_sqrt2 k max_distance = false := by
        rw [Bool.eq_false_iff]
        intro habs
        exact absurd ((sqrt_gt_add_sqrt2_iff k max_distance).mp habs)
          (not_lt.mpr hle)
      rw [hbase, h1, if_neg (by exact Bool.false_ne_true),
        if_pos ((sqrt_gtq_iff k max_distance).mpr hgt)]
    · intro hle
      have h1 : sqrt_gt_add_sqrt2 k max_distance = false := by
        rw [Bool.eq_false_iff]
        intro habs
        have := (sqrt_gt_add_sqrt2_iff k max_distance).mp habs
        have h2n : (0 : ℝ) ≤ Real.sqrt 2 := Real.sqrt_nonneg 2
        linarith
      have h2 : sqrt_gtq k max_distance = false := by
        rw [Bool.eq_false_iff]
        intro habs
        exact absurd ((sqrt_gtq_iff k max_distance).mp habs) (not_lt.mpr hle)
      rw [hbase, h1, if_neg (by exact Bool.false_ne_true), h2,
        if_neg (by exact Bool.false_ne_true), he]
  · intro he' k' hk'
    have hme : m.grid x y = BlockType.Empty := by
      by_contra hne
      rw [hgrid, filled_grid, if_pos ⟨hx, hy⟩, if_pos hne] at he'
      exact hne he'
    cases hns : nearest_sq m x y with
    | none =>
      rw [hgrid, filled_grid, if_pos ⟨hx, hy⟩, if_neg (by
        rw [hme]; exact fun hcon => hcon rfl), hns] at he'
      exact absurd he' (by simp)
    | some k =>
      have hbase : (fill_open_areas m max_distance).grid x y =
          (if sqrt_gt_add_sqrt2 k max_distance then BlockType.Hookable
           else if sqrt_gtq k max_distance then BlockType.Freeze
           else m.grid x y) := by
        rw [hgrid, filled_grid, if_pos ⟨hx, hy⟩, if_neg (by
          rw [hme]; exact fun hcon => hcon rfl), hns]
      rw [hbase] at he'
      have h2 : ¬ sqrt_gtq k max_distance = true := by
        intro habs
        rw [if_neg (c := sqrt_gt_add_sqrt2 k max_distance = true) (by
          intro habs1
          rw [if_pos habs1] at he'
          exact absurd he' (by simp)), if_pos habs] at he'
        exact absurd he' (by simp)
      have hdk : Real.sqrt (k : ℝ) ≤ (max_distance : ℝ) := by
        rw [sqrt_gtq_iff k max_distance] at h2
        exact not_lt.mp h2
      obtain ⟨c, hcmem, hcd⟩ : ∃ c ∈ non_empty_cells m,
          sq_dist x y c.1 c.2 = k := by
        obtain hmem := (fold_min_spec _ none k hns).2.2
        rcases hmem with hmem | habs
        · exact List.mem_map.mp hmem
        · exact Option.noConfusion habs
      have hc2 : c ∈ non_empty_cells (fill_open_areas m max_distance) := by
        have h1 := List.mem_filter.mp hcmem
        refine List.mem_filter.mpr ⟨h1.1, ?_⟩
        rw [decide_eq_true_eq]
        exact fill_open_areas_preserves_non_empty m max_distance c.1 c.2
          (of_decide_eq_true h1.2)
      have hdmem : sq_dist x y c.1 c.2 ∈
          (non_empty_cells (fill_open_areas m max_distance)).map
            (fun c => sq_dist x y c.1 c.2) :=
        List.mem_map.mpr ⟨c, hc2, rfl⟩
      have hle := (fold_min_spec _ none k' hk').1 _ hdmem
      rw [hcd] at hle
      have hsqle : Real.sqrt (k' : ℝ) ≤ Real.sqrt (k : ℝ) :=
        Real.sqrt_le_sqrt (by exact_mod_cast hle)
      have h2n : (0 : ℝ) ≤ Real.sqrt 2 := Real.sqrt_nonneg 2
      linarith

/-- A 5×5 map with a single `Hookable` at the origin, everything else
`Empty`. -/
def fill_ex_map : Map :=
  { width := 5, height := 5,
    grid := fun x y => if x = 0 ∧ y = 0 then BlockType.Hookable
      else BlockType.Empty,
    spawn := ⟨0, 0⟩ }

/-- Witness for C6 at a concrete input: with `max_distance = 1`, the `Empty`
cell (4,4) of `fill_ex_map` has squared distance 32 to the nearest
non-`Empty` cell, `√32 > 1 + √2`, and the fill pass turns it `Hookable`. -/
theorem fill_open_areas_spec_witness :
    (4 < fill_ex_map.width ∧ 4 < fill_ex_map.height ∧
      fill_ex_map.grid 4 4 = BlockType.Empty ∧
      nearest_sq fill_ex_map 4 4 = some 32) ∧
    (fill_open_areas fill_ex_map 1).grid 4 4 = BlockType.Hookable := by
  refine ⟨by decide, ?_⟩
  refine ((fill_open_areas_spec fill_ex_map 1 4 4 (by decide) (by decide)).2.1
    32 (by decide) (by decide)).1 ?_
  have hs2 : Real.sqrt 2 < 1.5 := by
    rw [Real.sqrt_lt' (by norm_num)]
    norm_num
  have h32 : (2.5 : ℝ) < Real.sqrt ((32 : ℕ) : ℝ) := by
    rw [Real.lt_sqrt (by norm_num)]
    norm_num
  push_cast
  linarith

/-- `Map::is_pos_in_bounds` (src/map.rs lines 81-84): no lower-bound check
needed because of `usize`. -/
def Map.pos_in_bounds (m : Map) (p : Position) : Bool :=
  decide (p.x < m.width ∧ p.y < m.height)

/-- `Position::shift_in_direction` — modelled from the spec: directional
single-cell shift with bounds validation, failing when the result would
leave the grid. -/
def Position.shift_in_direction (p : Position) (dir : ShiftDirection)
    (m : Map) : Except String Position :=
  match dir with
  | ShiftDirection.Up =>
    if p.y = 0 then Except.error "shift out of bounds"
    else Except.ok ⟨p.x, p.y - 1⟩
  | ShiftDirection.Right =>
    if p.x + 1 < m.width then Except.ok ⟨p.x + 1, p.y⟩
    else Except.error "shift out of bounds"
  | ShiftDirection.Down =>
    if p.y + 1 < m.height then Except.ok ⟨p.x, p.y + 1⟩
    else Except.error "shift out of bounds"
  | ShiftDirection.Left =>
    if p.x = 0 then Except.error "shift out of bounds"
    else Except.ok ⟨p.x - 1, p.y⟩

def except_ok {α β : Type} : Except α β → Bool
  | Except.ok _ => true
  | Except.error _ => false

/-- `Position::get_rated_shifts` — modelled from the spec: the four axis
directions that remain in-bounds, annotated with desirability toward the
goal; the rating only weights the random choice, which the `Rnd` stream
model absorbs, so the candidate list is what remains. -/
def Position.get_rated_shifts (p : Position) (goal : Position) (m : Map) :
    List ShiftDirection :=
  [ShiftDirection.Up, ShiftDirection.Right, ShiftDirection.Down,
    ShiftDirection.Left].filter (fun d => except_ok (p.shift_in_direction d m))

/-- `Position::shifted_by(dx, dy)` — modelled from the spec: arbitrary signed
offset that fails if the result would be negative. -/
def Position.shifted_by (p : Position) (dx dy : Int) : Except String Position :=
  let nx : Int := (p.x : Int) + dx
  let ny : Int := (p.y : Int) + dy
  if nx < 0 ∨ ny < 0 then Except.error "invalid shift"
  else Except.ok ⟨nx.toNat, ny.toNat⟩

/-- The grid written by `Map::apply_kernel` — modelled from the spec §4.3:
the replacement tile is written to every active cell subject to the
tile-transition rule; `Freeze` (the outer role) never overwrites carved
emptiness, any other replacement is forced. -/
def applied_grid (m : Map) (pos : Position) (kernel : Kernel)
    (block_type : BlockType) : Nat → Nat → BlockType := fun x y =>
  if kernel_active pos kernel x y then
    if block_type = BlockType.Freeze then
      match m.grid x y with
      | BlockType.Empty => BlockType.Empty
      | _ => BlockType.Freeze
    else block_type
  else m.grid x y

/-- `Map::apply_kernel(center, kernel, replacement_tile)` — modelled from the
spec §4.3 (the walker-era map.rs carrying it is absent from the provided
sources): all-or-nothing bounds check, then the masked write. -/
def Map.apply_kernel (m : Map) (pos : Position) (kernel : Kernel)
    (block_type : BlockType) : Except String Map :=
  if kernel_oob m pos kernel then Except.error "kernel out of bounds"
  else Except.ok { m with grid := applied_grid m pos kernel block_type }

/-- `CuteWalker::lock_previous_location` (src/walker.rs lines 300-340): lock
a square window (sized by the largest configured inner kernel size) around
the position of `delay` steps ago.  The Rust `.unwrap()` on the two
`shifted_by` calls and on `max()` would panic on failure; those cases cannot
occur for the in-grid positions the walker produces and are modelled as
leaving the walker unchanged. -/
def CuteWalker.lock_previous_location (w : CuteWalker) (delay : Nat) (m : Map)
    (gen_config : GenerationConfig) : CuteWalker :=
  if w.position_history.length ≤ delay then w
  else
    let previous_pos := w.position_history.getD (w.steps - delay) ⟨0, 0⟩
    let max_kernel_size := gen_config.inner_size_probs_values.foldl Nat.max 0
    let offset := max_kernel_size
    let extend := max_kernel_size * 2 - offset
    match previous_pos.shifted_by (-(offset : Int)) (-(offset : Int)),
        previous_pos.shifted_by (extend : Int) (extend : Int) with
    | Except.ok top_left, Except.ok bot_right =>
      if !(m.pos_in_bounds top_left) || !(m.pos_in_bounds bot_right) then w
      else
        let locked : Nat → Nat → Bool := fun a b =>
          if top_left.x ≤ a ∧ a ≤ bot_right.x ∧
              top_left.y ≤ b ∧ b ≤ bot_right.y then true
          else w.locked_positions a b
        { w with locked_positions := locked }
    | _, _ => w

/-- The resample loop of `probabilistic_step` (src/walker.rs lines 157-167):
exactly 100 iterations; each reads the lock flag of the current target and,
when locked, samples a fresh shift and recomputes the target (a failing
shift propagates its error through `?`, state kept).  Returns the final
`invalid` flag, shift, target, stream, and the propagated error if any. -/
def resample_loop (locked : Nat → Nat → Bool) (pos : Position) (m : Map)
    (shifts : List ShiftDirection) :
    Nat → ShiftDirection → Position → Rnd → Bool →
      Bool × ShiftDirection × Position × Rnd × Option String
  | 0, s, t, rnd, invalid => (invalid, s, t, rnd, none)
  | n + 1, s, t, rnd, _ =>
    let invalid := locked t.x t.y
    if invalid then
      let s2 := rnd.sample_shift shifts
      match pos.shift_in_direction s2.1 m with
      | Except.error e => (invalid, s2.1, t, s2.2, some e)
      | Except.ok t2 => resample_loop locked pos m shifts n s2.1 t2 s2.2 invalid
    else resample_loop locked pos m shifts n s t rnd invalid

/-- The outcome of one `probabilistic_step`: the walker, map and stream as
left by the Rust `&mut` receivers, plus the returned error if any. -/
structure StepResult where
  walker : CuteWalker
  map : Map
  rnd : Rnd
  err : Option String

/-- Shift sampling of `probabilistic_step` (src/walker.rs lines 141-152):
sample from the rated shifts, then with the momentum probability (drawn only
when a last shift exists) reuse the previous direction. -/
def sample_phase (w1 : CuteWalker) (m : Map) (gen_config : GenerationConfig)
    (rnd : Rnd) (goal : Position) :
    List ShiftDirection × ShiftDirection × Rnd :=
  let shifts := w1.pos.get_rated_shifts goal m
  let s0 := rnd.sample_shift shifts
  match w1.last_shift with
  | none => (shifts, s0.1, s0.2)
  | some last_shift =>
    let b := s0.2.with_probability gen_config.momentum_prob
    (shifts, if b.1 then last_shift else s0.1, b.2)

/-- The tail of `probabilistic_step` after the move has been committed
(src/walker.rs lines 186-223): pulse decision, kernel stamps (a pulse
stamps the widened full-square pair; otherwise outer-`Freeze` then
inner-void — `EmptyReserved` during the fade-in window is modelled as
`Empty`, the variant being absent from src/map.rs and spec-equivalent for
these passes), pulse-counter update, and recording of `last_shift`. -/
def step_commit (w2 : CuteWalker) (m : Map) (gen_config : GenerationConfig)
    (rnd2 : Rnd) (same_dir : Bool) (current_shift : ShiftDirection) :
    StepResult :=
  let perform_pulse := gen_config.enable_pulse &&
    ((same_dir && decide (gen_config.pulse_straight_delay < w2.pulse_counter))
      || (!same_dir && decide (gen_config.pulse_corner_delay < w2.pulse_counter)))
  let after : CuteWalker → Map → StepResult := fun w m' =>
    let w5 :=
      if same_dir ∧ w.inner_kernel.size ≤ gen_config.pulse_max_kernel_size then
        { w with pulse_counter := w.pulse_counter + 1 }
      else { w with pulse_counter := 0 }
    ⟨{ w5 with last_shift := some current_shift }, m', rnd2, none⟩
  if perform_pulse then
    let w4 := { w2 with pulse_counter := 0 }
    match m.apply_kernel w4.pos (Kernel.new (w4.inner_kernel.size + 4) 0)
        BlockType.Freeze with
    | Except.error e => ⟨w4, m, rnd2, some e⟩
    | Except.ok m1 =>
      match m1.apply_kernel w4.pos (Kernel.new (w4.inner_kernel.size + 2) 0)
          BlockType.Empty with
      | Except.error e => ⟨w4, m1, rnd2, some e⟩
      | Except.ok m2 => after w4 m2
  else
    match m.apply_kernel w2.pos w2.outer_kernel BlockType.Freeze with
    | Except.error e => ⟨w2, m, rnd2, some e⟩
    | Except.ok m1 =>
      match m1.apply_kernel w2.pos w2.inner_kernel BlockType.Empty with
      | Except.error e => ⟨w2, m1, rnd2, some e⟩
      | Except.ok m2 => after w2 m2

/-- `probabilistic_step` from the goal read onward (src/walker.rs lines
141-223): sample a shift, validate the target, run the resample loop against
the lock-mask, fail with the stuck error if the target is still locked when
the retry bound is exhausted, otherwise commit the move (advance position,
bump the step counter, lock the delayed neighborhood) and carve. -/
def step_after_goal (w1 : CuteWalker) (m : Map) (gen_config : GenerationConfig)
    (rnd : Rnd) (goal : Position) : StepResult :=
  let sp := sample_phase w1 m gen_config rnd goal
  match w1.pos.shift_in_direction sp.2.1 m with
  | Except.error e => ⟨w1, m, sp.2.2, some e⟩
  | Except.ok t0 =>
    let loop := resample_loop w1.locked_positions w1.pos m sp.1 100 sp.2.1 t0
      sp.2.2 false
    match loop.2.2.2.2 with
    | some e => ⟨w1, m, loop.2.2.2.1, some e⟩
    | none =>
      if loop.1 then ⟨w1, m, loop.2.2.2.1, some "Walker got stuck :("⟩
      else
        let same_dir := match w1.last_shift with
          | some last_shift => decide (loop.2.1 = last_shift)
          | none => false
        match w1.pos.shift_in_direction loop.2.1 m with
        | Except.error e => ⟨w1, m, loop.2.2.2.1, some e⟩
        | Except.ok newpos =>
          let w2 := { w1 with pos := newpos, steps := w1.steps + 1 }
          let w3 := w2.lock_previous_location 100 m gen_config
          step_commit w3 m gen_config loop.2.2.2.1 same_dir loop.2.1

/-- `CuteWalker::probabilistic_step` (src/walker.rs lines 128-224). -/
def CuteWalker.probabilistic_step (w : CuteWalker) (m : Map)
    (gen_config : GenerationConfig) (rnd : Rnd) : StepResult :=
  if w.finished then ⟨w, m, rnd, some "Walker is finished"⟩
  else
    let w1 := { w with position_history := w.position_history ++ [w.pos] }
    match w1.goal with
    | none => ⟨w1, m, rnd, some "Error: Goal is None"⟩
    | some goal => step_after_goal w1 m gen_config rnd goal

lemma probabilistic_step_eq (w : CuteWalker) (m : Map)
    (gen_config : GenerationConfig) (rnd : Rnd) (goal : Position)
    (hfin : w.finished = false) (hgoal : w.goal = some goal) :
    w.probabilistic_step m gen_config rnd =
      step_after_goal { w with position_history := w.position_history ++ [w.pos] }
        m gen_config rnd goal := by
  unfold CuteWalker.probabilistic_step
  rw [hfin]
  simp only [Bool.false_eq_true, if_false]
  have hg : ({ w with position_history := w.position_history ++ [w.pos] }
      : CuteWalker).goal = some goal := hgoal
  rw [hg]

lemma step_after_goal_stuck (w1 : CuteWalker) (m : Map)
    (gen_config : GenerationConfig) (rnd : Rnd) (goal : Position) (t0 : Position)
    (ht0 : w1.pos.shift_in_direction
      (sample_phase w1 m gen_config rnd goal).2.1 m = Except.ok t0)
    (hnoerr : (resample_loop w1.locked_positions w1.pos m
      (sample_phase w1 m gen_config rnd goal).1 100
      (sample_phase w1 m gen_config rnd goal).2.1 t0
      (sample_phase w1 m gen_config rnd goal).2.2 false).2.2.2.2 = none)
    (hstuck : (resample_loop w1.locked_positions w1.pos m
      (sample_phase w1 m gen_config rnd goal).1 100
      (sample_phase w1 m gen_config rnd goal).2.1 t0
      (sample_phase w1 m gen_config rnd goal).2.2 false).1 = true) :
    step_after_goal w1 m gen_config rnd goal =
      ⟨w1, m, (resample_loop w1.locked_positions w1.pos m
        (sample_phase w1 m gen_config rnd goal).1 100
        (sample_phase w1 m gen_config rnd goal).2.1 t0
        (sample_phase w1 m gen_config rnd goal).2.2 false).2.2.2.1,
        some "Walker got stuck :("⟩ := by
  unfold step_after_goal
  simp only []
  rw [ht0]
  simp only [hnoerr, hstuck, if_true]

/-- C7: during one walker step, when the retry loop against the lock-mask
runs its 100 resampling attempts without a shift error and the current target
is still locked at the end, the step fails with the stuck-walker error and
neither the walker's position nor the map is changed. -/
theorem probabilistic_step_stuck (w : CuteWalker) (m : Map)
    (gen_config : GenerationConfig) (rnd : Rnd) (goal : Position) (t0 : Position)
    (hfin : w.finished = false) (hgoal : w.goal = some goal)
    (ht0 : w.pos.shift_in_direction
      (sample_phase w m gen_config rnd goal).2.1 m = Except.ok t0)
    (hnoerr : (resample_loop w.locked_positions w.pos m
      (sample_phase w m gen_config rnd goal).1 100
      (sample_phase w m gen_config rnd goal).2.1 t0
      (sample_phase w m gen_config rnd goal).2.2 false).2.2.2.2 = none)
    (hstuck : (resample_loop w.locked_positions w.pos m
      (sample_phase w m gen_config rnd goal).1 100
      (sample_phase w m gen_config rnd goal).2.1 t0
      (sample_phase w m gen_config rnd goal).2.2 false).1 = true) :
    (w.probabilistic_step m gen_config rnd).err = some "Walker got stuck :(" ∧
    (w.probabilistic_step m gen_config rnd).walker.pos = w.pos ∧
    (w.probabilistic_step m gen_config rnd).map = m := by
  have ht0' : ({ w with position_history := w.position_history ++ [w.pos] }
        : CuteWalker).pos.shift_in_direction
      (sample_phase { w with position_history := w.position_history ++ [w.pos] }
        m gen_config rnd goal).2.1 m = Except.ok t0 := ht0
  have hnoerr' : (resample_loop
      ({ w with position_history := w.position_history ++ [w.pos] }
        : CuteWalker).locked_positions
      ({ w with position_history := w.position_history ++ [w.pos] }
        : CuteWalker).pos m
      (sample_phase { w with position_history := w.position_history ++ [w.pos] }
        m gen_config rnd goal).1 100
      (sample_phase { w with position_history := w.position_history ++ [w.pos] }
        m gen_config rnd goal).2.1 t0
      (sample_phase { w with position_history := w.position_history ++ [w.pos] }
        m gen_config rnd goal).2.2 false).2.2.2.2 = none := hnoerr
  have hstuck' : (resample_loop
      ({ w with position_history := w.position_history ++ [w.pos] }
        : CuteWalker).locked_positions
      ({ w with position_history := w.position_history ++ [w.pos] }
        : CuteWalker).pos m
      (sample_phase { w with position_history := w.position_history ++ [w.pos] }
        m gen_config rnd goal).1 100
      (sample_phase { w with position_history := w.position_history ++ [w.pos] }
        m gen_config rnd goal).2.1 t0
      (sample_phase { w with position_history := w.position_history ++ [w.pos] }
        m gen_config rnd goal).2.2 false).1 = true := hstuck
  rw [probabilistic_step_eq w m gen_config rnd goal hfin hgoal,
    step_after_goal_stuck _ m gen_config rnd goal t0 ht0' hnoerr' hstuck']
  exact ⟨rfl, rfl, rfl⟩

/-- A 5×5 all-`Hookable` map for the stuck-walker witness. -/
def stuck_map : Map :=
  { width := 5, height := 5, grid := fun _ _ => BlockType.Hookable,
    spawn := ⟨0, 0⟩ }

/-- A walker at (2,2) whose lock-mask covers every cell. -/
def stuck_walker : CuteWalker :=
  { pos := ⟨2, 2⟩, steps := 0, inner_kernel := sq3, outer_kernel := sq3,
    goal := some ⟨4, 2⟩, goal_index := 0, waypoints := [⟨4, 2⟩],
    finished := false, steps_since_platform := 0, last_shift := none,
    pulse_counter := 0, locked_positions := fun _ _ => true,
    position_history := [] }

/-- A concrete configuration for the stuck-walker witness. -/
def stuck_config : GenerationConfig :=
  { inner_size_mut_prob := 0, outer_size_mut_prob := 0,
    inner_rad_mut_prob := 0, outer_rad_mut_prob := 0, momentum_prob := 0,
    enable_pulse := false, pulse_straight_delay := 10, pulse_corner_delay := 10,
    pulse_max_kernel_size := 5, fade_steps := 0, max_distance := 5,
    waypoint_reached_dist := 4, inner_size_probs_values := [3, 5] }

/-- A concrete all-zero random stream. -/
def stuck_rnd : Rnd :=
  { bools := fun _ => false, nats := fun _ => 0, qs := fun _ => 0, idx := 0 }

/-- Witness for C7: with every cell locked, the step on the concrete walker
exhausts its 100 resamples, fails with the stuck error, and leaves position
and map unchanged. -/
theorem probabilistic_step_stuck_witness :
    (stuck_walker.probabilistic_step stuck_map stuck_config stuck_rnd).err =
      some "Walker got stuck :(" ∧
    (stuck_walker.probabilistic_step stuck_map stuck_config
      stuck_rnd).walker.pos = stuck_walker.pos ∧
    (stuck_walker.probabilistic_step stuck_map stuck_config stuck_rnd).map =
      stuck_map :=
  probabilistic_step_stuck stuck_walker stuck_map stuck_config stuck_rnd
    ⟨4, 2⟩ ⟨2, 1⟩ rfl rfl rfl rfl rfl

/-- The loop of `Generator::generate_map` (src/generator.rs lines 201-206):
`for _ in 0..max_steps { if finished { break } step()? }`, abstracted over
the generator state; returns the final state and the number of steps taken,
or the first step error. -/
def run_steps {σ : Type} (finished : σ → Bool) (step : σ → Except String σ) :
    Nat → σ → Except String (σ × Nat)
  | 0, s => Except.ok (s, 0)
  | n + 1, s =>
    if finished s then Except.ok (s, 0)
    else
      match step s with
      | Except.error e => Except.error e
      | Except.ok s2 =>
        match run_steps finished step n s2 with
        | Except.error e => Except.error e
        | Except.ok (s3, k) => Except.ok (s3, k + 1)

lemma run_steps_exhaust {σ : Type} (finished : σ → Bool)
    (step : σ → Except String σ) :
    ∀ (n : Nat) (s s2 : σ) (k : Nat),
      run_steps finished step n s = Except.ok (s2, k) →
      finished s2 = true ∨ k = n
  | 0, s, s2, k, h => by
    have h1 : ((s, 0) : σ × Nat) = (s2, k) := Except.ok.injEq .. ▸ h
    have h2 : s = s2 ∧ 0 = k := Prod.mk.injEq .. ▸ h1
    exact Or.inr h2.2.symm
  | n + 1, s, s2, k, h => by
    by_cases hfin : finished s = true
    · have h' : run_steps finished step (n + 1) s = Except.ok (s, 0) := by
        unfold run_steps
        rw [if_pos hfin]
      rw [h'] at h
      have h1 : ((s, 0) : σ × Nat) = (s2, k) := Except.ok.injEq .. ▸ h
      have h2 : s = s2 ∧ 0 = k := Prod.mk.injEq .. ▸ h1
      exact Or.inl (h2.1 ▸ hfin)
    · cases hstep : step s with
      | error e =>
        have h' : run_steps finished step (n + 1) s = Except.error e := by
          unfold run_steps
          rw [if_neg hfin, hstep]
        rw [h'] at h
        exact Except.noConfusion h
      | ok s1 =>
        cases hrec : run_steps finished step n s1 with
        | error e =>
          have h' : run_steps finished step (n + 1) s = Except.error e := by
            unfold run_steps
            rw [if_neg hfin, hstep]
            show (match run_steps finished step n s1 with
              | Except.error e => Except.error e
              | Except.ok (s3, k) => Except.ok (s3, k + 1)) = _
            rw [hrec]
          rw [h'] at h
          exact Except.noConfusion h
        | ok p =>
          obtain ⟨s3, k3⟩ := p
          have h' : run_steps finished step (n + 1) s =
              Except.ok (s3, k3 + 1) := by
            unfold run_steps
            rw [if_neg hfin, hstep]
            show (match run_steps finished step n s1 with
              | Except.error e => Except.error e
              | Except.ok (s3, k) => Except.ok (s3, k + 1)) = _
            rw [hrec]
          rw [h'] at h
          have h1 : ((s3, k3 + 1) : σ × Nat) = (s2, k) :=
            Except.ok.injEq .. ▸ h
          have h2 : s3 = s2 ∧ k3 + 1 = k := Prod.mk.injEq .. ▸ h1
          rcases run_steps_exhaust finished step n s1 s3 k3 hrec with hf | hk
          · exact Or.inl (h2.1 ▸ hf)
          · refine Or.inr ?_
            have h3 := h2.2
            omega

/-- The post-processing passes named by the spec. -/
inductive PostPass
  | edgeBugRepair
  | roomStamp
  | openAreaFill
  | skipGeneration
  | freezeBlobRemoval
deriving DecidableEq, Repr

/-- Start/Finish room markers — modelled from the spec: the `Start`/`Finish`
tile variants referenced by src/generator.rs are absent from the `BlockType`
of src/map.rs, so rooms are tracked by marker and stamp `Empty` into the
3-variant grid. -/
inductive RoomMarker
  | start
  | finish
deriving DecidableEq, Repr

/-- `Map::generate_room(pos, room_w, room_h, marker)` — modelled from the
spec: stamps a rectangular room clearing centered on `pos`, failing when the
rectangle leaves the grid. -/
def generate_room (m : Map) (pos : Position) (room_w room_h : Nat)
    (marker : Option RoomMarker) : Except String Map :=
  if pos.x < room_w ∨ pos.y < room_h ∨ pos.x + room_w ≥ m.width ∨
      pos.y + room_h ≥ m.height then
    Except.error "room out of bounds"
  else
    let carved : Nat → Nat → BlockType := fun x y =>
      if pos.x - room_w ≤ x ∧ x ≤ pos.x + room_w ∧
          pos.y - room_h ≤ y ∧ y ≤ pos.y + room_h then BlockType.Empty
      else m.grid x y
    Except.ok { m with grid := carved }

/-- `Generator::post_processing` (src/generator.rs lines 176-189), with the
passes it executes recorded in order: `fix_edge_bugs` (its `.expect` panic
rendered as `none`), the start room at the spawn, the finish room at the
walker's position (both `.expect`ed), then `fill_area` with the configured
max distance.  The debug-layer store is display-only and not modelled. -/
def post_processing (m : Map) (walker_pos : Position)
    (config : GenerationConfig) : Option Map × List PostPass :=
  match fix_edge_bugs m with
  | (_, some _) => (none, [PostPass.edgeBugRepair])
  | (m1, none) =>
    match generate_room m1 m1.spawn 4 3 (some RoomMarker.start) with
    | Except.error _ => (none, [PostPass.edgeBugRepair, PostPass.roomStamp])
    | Except.ok m2 =>
      match generate_room m2 walker_pos 4 3 (some RoomMarker.finish) with
      | Except.error _ =>
        (none, [PostPass.edgeBugRepair, PostPass.roomStamp, PostPass.roomStamp])
      | Except.ok m3 =>
        (some (fill_open_areas m3 config.max_distance),
          [PostPass.edgeBugRepair, PostPass.roomStamp, PostPass.roomStamp,
            PostPass.openAreaFill])

/-- The pass order asserted by the spec for `generate_map`: edge-bug repair,
start/finish room stamping, open-area fill, then skip generation and
freeze-blob removal (this definition follows the claim's words, to be
compared with the embedded `post_processing`). -/
def claimed_post_passes : List PostPass :=
  [PostPass.edgeBugRepair, PostPass.roomStamp, PostPass.roomStamp,
    PostPass.openAreaFill, PostPass.skipGeneration, PostPass.freezeBlobRemoval]

/-- A 10×10 all-`Hookable` map with spawn (4,4) on which `post_processing`
completes. -/
def pipeline_ex_map : Map :=
  { width := 10, height := 10, grid := fun _ _ => BlockType.Hookable,
    spawn := ⟨4, 4⟩ }

/-- C1 counterexample: on a concrete map on which `generate_map`'s
post-processing completes, the sequence of passes it executes is not the
claimed five-stage pipeline — skip generation and freeze-blob removal are
never run. -/
theorem generate_map_pipeline_counterexample :
    (post_processing pipeline_ex_map ⟨4, 4⟩ stuck_config).1.isSome = true ∧
    (post_processing pipeline_ex_map ⟨4, 4⟩ stuck_config).2 ≠
      claimed_post_passes := by
  constructor
  · rfl
  · decide

/-- C1 (amended): `generate_map` loops `step()` until the primary walker is
finished or the step budget is exhausted (any step error propagating), and
then runs exactly edge-bug repair, start/finish room stamping at the spawn
and at the walker's final position, and distance-based open-area fill, in
this order — skip generation and freeze-blob removal are not part of
`generate_map`'s post-processing. -/
theorem generate_map_pipeline (σ : Type) (finished : σ → Bool)
    (step : σ → Except String σ) (n : Nat) (s s2 : σ) (k : Nat)
    (hrun : run_steps finished step n s = Except.ok (s2, k))
    (m : Map) (walker_pos : Position) (config : GenerationConfig)
    (hsome : (post_processing m walker_pos config).1.isSome = true) :
    (finished s2 = true ∨ k = n) ∧
    (post_processing m walker_pos config).2 =
      [PostPass.edgeBugRepair, PostPass.roomStamp, PostPass.roomStamp,
        PostPass.openAreaFill] := by
  refine ⟨run_steps_exhaust finished step n s s2 k hrun, ?_⟩
  cases hfeb : fix_edge_bugs m with
  | mk m1 err =>
    cases err with
    | some e =>
      have hnone : (post_processing m walker_pos config).1 = none := by
        unfold post_processing
        simp only [hfeb]
      rw [hnone] at hsome
      exact Bool.noConfusion hsome
    | none =>
      cases hr1 : generate_room m1 m1.spawn 4 3 (some RoomMarker.start) with
      | error e =>
        have hnone : (post_processing m walker_pos config).1 = none := by
          unfold post_processing
          simp only [hfeb, hr1]
        rw [hnone] at hsome
        exact Bool.noConfusion hsome
      | ok m2 =>
        cases hr2 : generate_room m2 walker_pos 4 3
            (some RoomMarker.finish) with
        | error e =>
          have hnone : (post_processing m walker_pos config).1 = none := by
            unfold post_processing
            simp only [hfeb, hr1, hr2]
          rw [hnone] at hsome
          exact Bool.noConfusion hsome
        | ok m3 =>
          show (post_processing m walker_pos config).2 = _
          unfold post_processing
          simp only [hfeb, hr1, hr2]

/-- Witness for the amended C1: a boolean system finishing after one step
within a budget of 5, and the concrete pipeline run on the 10×10 map. -/
theorem generate_map_pipeline_witness :
    ((fun b : Bool => b) true = true ∨ (1 : Nat) = 5) ∧
    (post_processing pipeline_ex_map ⟨4, 4⟩ stuck_config).2 =
      [PostPass.edgeBugRepair, PostPass.roomStamp, PostPass.roomStamp,
        PostPass.openAreaFill] :=
  generate_map_pipeline Bool (fun b => b) (fun _ => Except.ok true) 5 false
    true 1 rfl pipeline_ex_map ⟨4, 4⟩ stuck_config rfl

/-- The 3×3 invalidation around a `Hookable` cell
(src/post_processing.rs lines 496-500): `invalid.slice_mut(s![x-1..=x+1,
y-1..=y+1]).fill(Some(true))`. -/
def fill_invalid_3x3 (inv : Nat → Nat → Option Bool) (x y : Nat) :
    Nat → Nat → Option Bool := fun a b =>
  if x - 1 ≤ a ∧ a ≤ x + 1 ∧ y - 1 ≤ b ∧ b ≤ y + 1 then some true
  else inv a b

/-- One store into the three-state `invalid` cache. -/
def inv_set (inv : Nat → Nat → Option Bool) (c : Nat × Nat) (v : Bool) :
    Nat → Nat → Option Bool := fun a b =>
  if (a, b) = c then some v else inv a b

/-- The window scan of one popped blob cell (src/post_processing.rs lines
518-553), over `neighbor_offsets` in `indexed_iter` order with the center
skipped: a solid (`Hookable`; `is_solid` modelled from the spec, the method
being absent from src/map.rs) neighbor or an already-invalidated freeze
neighbor breaks the scan with the blob no longer unconnected — the pushes
accumulated before the break are kept, as in the Rust `Vec` — while unmarked
freeze neighbors are queued. -/
def blob_scan (g : Nat → Nat → BlockType) (inv : Nat → Nat → Option Bool)
    (pos : Nat × Nat) :
    List (Nat × Nat) → List (Nat × Nat) → Bool × List (Nat × Nat)
  | [], pushes => (false, pushes)
  | o :: rest, pushes =>
    let a := pos.1 + o.1 - 1
    let b := pos.2 + o.2 - 1
    if g a b = BlockType.Hookable then (true, pushes)
    else if g a b ≠ BlockType.Freeze then blob_scan g inv pos rest pushes
    else
      match inv a b with
      | some true => (true, pushes)
      | some false => blob_scan g inv pos rest pushes
      | none => blob_scan g inv pos rest (pushes ++ [(a, b)])

/-- The `while blob_unconnected && !blob_visit_next.is_empty()` loop of
`remove_freeze_blobs` (src/post_processing.rs lines 513-558), with the
`Vec` stack modelled head-first (push order reversed onto the head gives the
same pop order as `Vec::push`/`Vec::pop`).  Note the Rust loop has no
visited check at pop: a cell queued twice while unmarked is popped,
re-marked and counted twice — `blob_size` counts pops, not distinct cells.
`fuel` bounds the iterations of the embedded loop; exhaustion yields `none`
and is distinguishable from every real outcome. -/
def blob_loop (g : Nat → Nat → BlockType) :
    Nat → (Nat → Nat → Option Bool) → List (Nat × Nat) → List (Nat × Nat) →
      Nat → Option ((Nat → Nat → Option Bool) × List (Nat × Nat) ×
        List (Nat × Nat) × Bool × Nat)
  | _, inv, [], visited, size => some (inv, visited, [], true, size)
  | 0, _, _ :: _, _, _ => none
  | fuel + 1, inv, pos :: rest, visited, size =>
    let inv2 := inv_set inv pos false
    let scan := blob_scan g inv2 pos neighbor_offsets []
    let visited2 := visited ++ [pos]
    let size2 := size + 1
    let queue2 := scan.2.reverse ++ rest
    if scan.1 then some (inv2, visited2, queue2, false, size2)
    else blob_loop g fuel inv2 queue2 visited2 size2

/-- Processing of one scan cell of `remove_freeze_blobs`
(src/post_processing.rs lines 484-583): skip if already cached; a `Hookable`
cell invalidates its 3×3 window; a yet-unmarked `Freeze` cell seeds the blob
loop, after which a connected blob invalidates everything it visited or
queued, and an unconnected blob below the size threshold is erased to
`Empty`. -/
def rfb_cell (min_freeze_size : Nat)
    (st : Map × (Nat → Nat → Option Bool)) (c : Nat × Nat) :
    Option (Map × (Nat → Nat → Option Bool)) :=
  let m := st.1
  let inv := st.2
  if (inv c.1 c.2).isSome then some st
  else if m.grid c.1 c.2 = BlockType.Hookable then
    some (m, fill_invalid_3x3 inv c.1 c.2)
  else if m.grid c.1 c.2 ≠ BlockType.Freeze then some st
  else
    match blob_loop m.grid ((m.width * m.height + 1) * 9) inv [c] [] 0 with
    | none => none
    | some (inv2, visited, queue2, unconnected, size) =>
      if unconnected then
        if size < min_freeze_size then
          let erased : Nat → Nat → BlockType :=
            visited.foldl (fun g p => gset g p.1 p.2 BlockType.Empty) m.grid
          some ({ m with grid := erased }, inv2)
        else some (m, inv2)
      else
        some (m, (visited ++ queue2).foldl
          (fun iv p => inv_set iv p true) inv2)

/-- The scan range of `remove_freeze_blobs`: `x` and `y` over
`window_size..(dim - window_size)` with `window_size = 1`, `x` outer. -/
def interior_coord_list (width height : Nat) : List (Nat × Nat) :=
  (List.range (width - 2)).bind (fun i =>
    (List.range (height - 2)).map (fun j => (i + 1, j + 1)))

/-- `remove_freeze_blobs(gen, min_freeze_size)` (src/post_processing.rs
lines 472-586).  The debug blob layer is display-only and not modelled;
`none` only reports blob-loop fuel exhaustion. -/
def remove_freeze_blobs (m : Map) (min_freeze_size : Nat) : Option Map :=
  ((interior_coord_list m.width m.height).foldlM
    (rfb_cell min_freeze_size) (m, fun _ _ => none)).map Prod.fst

instance (x y nx ny : Nat) : Decidable (adj8 x y nx ny) := by
  unfold adj8; infer_instance

/-- One expansion step of 8-connected reachability inside the `Freeze`
cells. -/
def expand_freeze (m : Map) (s : List (Nat × Nat)) : List (Nat × Nat) :=
  (coord_list m.width m.height).filter (fun c =>
    decide (m.grid c.1 c.2 = BlockType.Freeze) &&
    (decide (c ∈ s) || s.any (fun d => decide (adj8 d.1 d.2 c.1 c.2))))

def iterate_expand (m : Map) : Nat → List (Nat × Nat) → List (Nat × Nat)
  | 0, s => s
  | n + 1, s => iterate_expand m n (expand_freeze m s)

/-- The 8-connected component of `Freeze` cells containing `c0` (the
reference notion of blob and of blob size: distinct cells, not pop
events). -/
def freeze_component (m : Map) (c0 : Nat × Nat) : List (Nat × Nat) :=
  if m.grid c0.1 c0.2 = BlockType.Freeze then
    iterate_expand m (m.width * m.height) [c0]
  else []

/-- A 4×4 map whose interior holds a 2×2 `Freeze` blob, everything else
`Empty` (no `Hookable` anywhere, so the blob is unconnected). -/
def rfb_ex_map : Map :=
  { width := 4, height := 4,
    grid := fun x y =>
      if (x = 1 ∨ x = 2) ∧ (y = 1 ∨ y = 2) then BlockType.Freeze
      else BlockType.Empty,
    spawn := ⟨0, 0⟩ }

/-- C8 (code bug): on the 4×4 map the `Freeze` component of (1,1) has
exactly 4 cells, none of them 8-adjacent to a `Hookable` cell, and 4 is
below the threshold 5 — so the claim (and the function's own doc comment,
"removes unconnected/isolated that are smaller in size than given minimal
threshold") requires the blob to be erased to `Empty`.  The code instead
keeps all four cells `Freeze`: its `blob_size` counts pop events of a queue
without a visited check, so the 2×2 blob is counted as 7 and compared
against the threshold as if it were at least 5. -/
theorem remove_freeze_blobs_size_bug :
    (freeze_component rfb_ex_map (1, 1)).length = 4 ∧
    (4 < 5) ∧
    ((freeze_component rfb_ex_map (1, 1)).all (fun c =>
      neighbor_offsets.all (fun o =>
        !(decide (rfb_ex_map.grid (c.1 + o.1 - 1) (c.2 + o.2 - 1) =
          BlockType.Hookable)))) = true) ∧
    ((remove_freeze_blobs rfb_ex_map 5).map (fun m' => m'.grid 1 1) =
      some BlockType.Freeze) ∧
    ((remove_freeze_blobs rfb_ex_map 5).map (fun m' => m'.grid 2 1) =
      some BlockType.Freeze) ∧
    ((remove_freeze_blobs rfb_ex_map 5).map (fun m' => m'.grid 1 2) =
      some BlockType.Freeze) ∧
    ((remove_freeze_blobs rfb_ex_map 5).map (fun m' => m'.grid 2 2) =
      some BlockType.Freeze) := by
  decide
